import Mathlib

/-!
# Verification of the anki-genix backend core logic

A shallow embedding, in Lean 4, of the core orchestration logic of the
anki-genix backend (catalog addressing, leaf-most selection filtering,
multi-section aggregation, task validation, card persistence and export).

Python strings are modelled as `List Char` (Python indexes strings by code
point, as does `List Char`); Python dicts with a fixed set of possible keys
are modelled as structures with `Option`-typed fields (`none` = key absent);
the relational store is modelled as explicit state passing; the external AI
collaborator is modelled as an oracle parameter.
-/

namespace AnkiGenix

/-- Python strings, modelled as lists of code points. -/

abbrev Str := List Char

/-! ## Decimal representation of natural numbers

Python's `str(int)` / f-string interpolation of a nonnegative integer
produces its decimal representation with no leading zeros (`"0"` for 0).
`natDecStr` models this using Mathlib's little-endian `Nat.digits`.
-/

/-- Decimal representation of a natural number, as produced by Python's
`str`/f-string formatting: most-significant digit first, no leading zeros,
`"0"` for zero. -/

def natDecStr (n : Nat) : Str :=
  if n = 0 then ['0'] else ((Nat.digits 10 n).map Nat.digitChar).reverse

/-! ## Catalog data model (spec §3, source `business/database/catalog_db.py`)

A catalog is an ordered forest of chapter nodes, each with an ordered list of
section children, each with an ordered list of subsection children.  Each node
carries a display label (the `chapter`/`section`/`subsection` dict key in the
source) and an `id` address string (absent before addressing, overwritten by
the addressing algorithm). -/

structure SubNode where
  id : Str
  label : Str
deriving DecidableEq, Repr

structure SecNode where
  id : Str
  label : Str
  subsections : List SubNode
deriving DecidableEq, Repr

structure ChapNode where
  id : Str
  label : Str
  sections : List SecNode
deriving DecidableEq, Repr

abbrev Catalog := List ChapNode

/-! ## Addressing algorithm (`CatalogDB._generate_catalog_ids`)

`for subsection_idx, subsection in enumerate(section_copy['subsections'], 1):
subsection_id = f"{section_id}.{subsection_idx}"` and the analogous loops for
sections and chapters.  The 1-based `enumerate` counters are modelled as
explicit `Nat` arguments starting at 1. -/

def genSubsectionIds (sectionId : Str) : Nat → List SubNode → List SubNode
  | _, [] => []
  | i, u :: rest =>
    { u with id := sectionId ++ '.' :: natDecStr i } :: genSubsectionIds sectionId (i + 1) rest

def genSectionIds (chapterId : Str) : Nat → List SecNode → List SecNode
  | _, [] => []
  | j, s :: rest =>
    { s with id := chapterId ++ '.' :: natDecStr j,
             subsections := genSubsectionIds (chapterId ++ '.' :: natDecStr j) 1 s.subsections } ::
      genSectionIds chapterId (j + 1) rest

/-- Embeds `CatalogDB._generate_catalog_ids`: the k-th chapter (1-based)
receives id `"k"`, the j-th section under chapter `C` receives `"C.j"`, the
i-th subsection under section `S` receives `"S.i"`; all other node fields pass
through unchanged. -/

def generate_catalog_ids : Nat → Catalog → Catalog
  | _, [] => []
  | k, ch :: rest =>
    { ch with id := natDecStr k,
              sections := genSectionIds (natDecStr k) 1 ch.sections } ::
      generate_catalog_ids (k + 1) rest

/-- All ids of an addressed catalog, in document order: each chapter id
followed by its sections' ids, each followed by its subsections' ids. -/

def collectSecIds (l : List SecNode) : List Str :=
  l.flatMap fun s => s.id :: s.subsections.map (·.id)

def collectIds (cat : Catalog) : List Str :=
  cat.flatMap fun ch => ch.id :: collectSecIds ch.sections

/-! ## Leaf-most selection filter (`FlashcardBusiness._filter_leaf_sections`)

The source walks the catalog three times: `check_children` collects into the
set `has_selected_children` every id that is itself selected and has a
*direct* child whose id is selected; `build_mapping` builds the
`id_to_title` dict in preorder (later bindings overwrite earlier ones, and a
binding is only recorded when both the title and the id are truthy);
finally the selected ids are filtered in their given order.  The Python set
is modelled as a list used only through membership; the dict as an
association list looked up from its last binding. -/

/-- The `" - "` separator used when concatenating ancestor labels. -/

def titleSep : Str := [' ', '-', ' ']

/-- Title of a section node: `f"{parent_chapter} - {section}"` when the parent
chapter label is truthy, else the bare section label. -/

def sectionTitle (parentChapter label : Str) : Str :=
  if parentChapter ≠ [] then parentChapter ++ titleSep ++ label else label

/-- Title of a subsection node, mirroring the source's
`if parent_chapter and parent_section ... elif parent_section ... else` chain. -/

def subsectionTitle (parentChapter parentSection label : Str) : Str :=
  if parentChapter ≠ [] ∧ parentSection ≠ [] then
    parentChapter ++ titleSep ++ parentSection ++ titleSep ++ label
  else if parentSection ≠ [] then parentSection ++ titleSep ++ label
  else label

/-- The `check_children` walk at section depth: a section id is recorded when the
section is selected and one of its (direct) subsection children is selected.
(The source's recursive re-visit of a selected subsection child walks a node
with no child keys and is a no-op.) -/

def checkChildrenSecs (chapter_ids : List Str) : List Str → List SecNode → List Str
  | acc, [] => acc
  | acc, s :: rest =>
    checkChildrenSecs chapter_ids
      (if (s.subsections.any fun u => decide (u.id ∈ chapter_ids)) = true ∧ s.id ∈ chapter_ids
       then s.id :: acc else acc) rest

/-- The re-visit pass: as the source scans a chapter's section children for
selected ids, it calls `check_children([child])` on each selected child. -/

def revisitSelectedSecs (chapter_ids : List Str) (acc : List Str) (l : List SecNode) : List Str :=
  l.foldl (fun a s => if s.id ∈ chapter_ids then checkChildrenSecs chapter_ids a [s] else a) acc

/-- The `check_children` walk at chapter depth.  As in the source, each selected
section child is first re-visited on its own (`check_children([child])`),
then the chapter itself is recorded when selected with a selected direct
child, then all section children are walked unconditionally. -/

def checkChildrenChaps (chapter_ids : List Str) : List Str → List ChapNode → List Str
  | acc, [] => acc
  | acc, ch :: rest =>
    checkChildrenChaps chapter_ids
      (checkChildrenSecs chapter_ids
        (if (ch.sections.any fun s => decide (s.id ∈ chapter_ids)) = true ∧ ch.id ∈ chapter_ids
         then ch.id :: revisitSelectedSecs chapter_ids acc ch.sections
         else revisitSelectedSecs chapter_ids acc ch.sections)
        ch.sections) rest

def has_selected_children (chapter_ids : List Str) (catalog : Catalog) : List Str :=
  checkChildrenChaps chapter_ids [] catalog

/-- The `build_mapping` walk: the `id -> title` bindings in preorder.  A binding is
recorded only when both the computed title and the id are truthy (nonempty). -/

def titleBindings (catalog : Catalog) : List (Str × Str) :=
  catalog.flatMap fun ch =>
    (if ch.label ≠ [] ∧ ch.id ≠ [] then [(ch.id, ch.label)] else []) ++
    (ch.sections.flatMap fun s =>
      (if sectionTitle ch.label s.label ≠ [] ∧ s.id ≠ [] then
        [(s.id, sectionTitle ch.label s.label)] else []) ++
      (s.subsections.filterMap fun u =>
        if subsectionTitle ch.label s.label u.label ≠ [] ∧ u.id ≠ [] then
          some (u.id, subsectionTitle ch.label s.label u.label) else none))

/-- Python dict semantics: the last assignment to a key wins. -/

def lookupLast (m : List (Str × Str)) (k : Str) : Option Str :=
  (m.reverse.find? fun p => decide (p.1 = k)).map (·.2)

/-- Embeds `FlashcardBusiness._filter_leaf_sections`.  The `section_titles`
argument is accepted (as in the source) but never read: the result is built
from `chapter_ids` and the catalog alone. -/

def filter_leaf_sections (section_titles : List Str) (chapter_ids : List Str)
    (catalog : Catalog) : List Str :=
  let hsc := has_selected_children chapter_ids catalog
  let id_to_title := titleBindings catalog
  chapter_ids.filterMap fun chapter_id =>
    if chapter_id ∈ hsc then none
    else match lookupLast id_to_title chapter_id with
      | some title => if title ≠ [] then some title else none
      | none => none

/-- Ids of all descendants (at any depth) of the node with id `cid`.  Used
only to state the claim's "descendant at any depth" condition. -/

def descendantIds (catalog : Catalog) (cid : Str) : List Str :=
  catalog.flatMap fun ch =>
    if ch.id = cid then collectSecIds ch.sections
    else ch.sections.flatMap fun s =>
      if s.id = cid then s.subsections.map (·.id) else []

/-- The drop condition actually implemented: some node with id `cid` has a
*direct* child whose id is selected. -/

def hasSelectedDirectChild (catalog : Catalog) (chapter_ids : List Str) (cid : Str) : Bool :=
  catalog.any fun ch =>
    (ch.id = cid && ch.sections.any fun s => decide (s.id ∈ chapter_ids)) ||
    (ch.sections.any fun s => s.id = cid && s.subsections.any fun u => decide (u.id ∈ chapter_ids))

/-- The leaf-most filter as the amended claim describes it: a selected id is
dropped exactly when a node carrying it has a selected *direct* child;
otherwise its resolved nonempty title (if any) is emitted, in selected order. -/

def leafFilterSpec (chapter_ids : List Str) (catalog : Catalog) : List Str :=
  chapter_ids.filterMap fun cid =>
    if hasSelectedDirectChild catalog chapter_ids cid then none
    else (lookupLast (titleBindings catalog) cid).bind fun t =>
      if t ≠ [] then some t else none

/-- Direct-child condition contributed by one chapter node. -/

def chapBlockCond (sel : List Str) (x : Str) (ch : ChapNode) : Prop :=
  (x = ch.id ∧ x ∈ sel ∧ ∃ s ∈ ch.sections, s.id ∈ sel) ∨
  (x ∈ sel ∧ ∃ s ∈ ch.sections, s.id = x ∧ ∃ u ∈ s.subsections, u.id ∈ sel)

/-- Concrete three-level catalog used to settle C1: chapter `"2"` (label `C`)
containing section `"2.1"` (label `S`) containing subsection `"2.1.1"`
(label `T`). -/

def c1Catalog : Catalog :=
  [⟨"2".toList, "C".toList, [⟨"2.1".toList, "S".toList, [⟨"2.1.1".toList, "T".toList⟩]⟩]⟩]

/-! ## Result parser (`AIWorkflow.parse_result`, `ai_services/workflows/base_workflow.py`)

The parser strips whitespace, drops a leading `"正在分析"` (4 code points), a
leading ` ```json ` (7 code points) or ` ``` ` (3), a trailing ` ``` `, strips
again, and then attempts JSON decoding of the cleaned text; on any decode
failure the *original* input is returned verbatim.  `json.loads` is an
external library call, modelled as an oracle `jsonLoads : Str → Option J`. -/

/-- Python `str.strip()`: drop whitespace from both ends. -/

def pyStrip (s : Str) : Str :=
  ((s.dropWhile Char.isWhitespace).reverse.dropWhile Char.isWhitespace).reverse

/-- The code-fence cleaning chain of `parse_result` (everything before the
`json.loads` attempt), line for line. -/

def stripCodeFences (s : Str) : Str :=
  let c0 := pyStrip s
  let c1 := if "正在分析".toList.isPrefixOf c0 then c0.drop 4 else c0
  let c2 :=
    if "```json".toList.isPrefixOf c1 then c1.drop 7
    else if "```".toList.isPrefixOf c1 then c1.drop 3
    else c1
  let c3 := if "```".toList.isSuffixOf c2 then c2.take (c2.length - 3) else c2
  pyStrip c3

inductive ParseOutcome (J : Type) where
  | structured (v : J)
  | raw (s : Str)
deriving DecidableEq

/-- Embeds `AIWorkflow.parse_result`: clean, try to decode, and on failure
return the original `ai_result` (not the cleaned text). -/

def parse_result {J : Type} (jsonLoads : Str → Option J) (ai_result : Str) : ParseOutcome J :=
  match jsonLoads (stripCodeFences ai_result) with
  | some v => .structured v
  | none => .raw ai_result

/-! ## Card conversion (`FlashcardBusiness._convert_card_to_jsonb` /
`_detect_card_type`, `business/flashcard.py`)

An AI-produced card is a dict that may carry any of the keys `question`,
`answer`, `text`, `cloze_items`, `options`, `correct_index`; it is modelled
with `Option` fields (`none` = key absent).  Python's nonnegative
`correct_index` is modelled as `Nat`. -/

structure Card where
  question : Option Str := none
  answer : Option Str := none
  text : Option Str := none
  cloze_items : Option (List Str) := none
  options : Option (List Str) := none
  correct_index : Option Nat := none
deriving DecidableEq, Repr

/-- The JSONB payload written for a card: one of the three canonical shapes,
or the raw card dict passed through unchanged (the source's final
`return card`). -/

inductive CardData where
  | basicData (question answer : Str)
  | clozeData (text : Str) (cloze_items : List Str)
  | mcData (question : Str) (options : List Str) (correct_index : Nat)
  | rawData (card : Card)
deriving DecidableEq, Repr

/-- Embeds `_convert_card_to_jsonb`: `question`+`answer` first, then
`text`+`cloze_items`, then `question`+`options` (with `correct_index`
defaulting to 0), else the card itself. -/

def convert_card_to_jsonb (card : Card) : CardData :=
  if card.question.isSome ∧ card.answer.isSome then
    .basicData (card.question.getD []) (card.answer.getD [])
  else if card.text.isSome ∧ card.cloze_items.isSome then
    .clozeData (card.text.getD []) (card.cloze_items.getD [])
  else if card.question.isSome ∧ card.options.isSome then
    .mcData (card.question.getD []) (card.options.getD []) (card.correct_index.getD 0)
  else .rawData card

/-- Embeds `_detect_card_type`: `cloze` when `cloze_items` or `text` is
present, else `multiple_choice` when `options` is present, else `basic`. -/

def detect_card_type (card : Card) : Str :=
  if card.cloze_items.isSome ∨ card.text.isSome then "cloze".toList
  else if card.options.isSome then "multiple_choice".toList
  else "basic".toList

/-- The stored payload has shape `{question, answer}`. -/

def isBasicShape : CardData → Bool
  | .basicData _ _ => true
  | .rawData c => c.question.isSome && c.answer.isSome && c.text.isNone &&
      c.cloze_items.isNone && c.options.isNone && c.correct_index.isNone
  | _ => false

/-- The stored payload has shape `{text, cloze_items}`. -/

def isClozeShape : CardData → Bool
  | .clozeData _ _ => true
  | .rawData c => c.text.isSome && c.cloze_items.isSome && c.question.isNone &&
      c.answer.isNone && c.options.isNone && c.correct_index.isNone
  | _ => false

/-- The stored payload has shape `{question, options, correct_index}`. -/

def isMcShape : CardData → Bool
  | .mcData _ _ _ => true
  | .rawData c => c.question.isSome && c.options.isSome && c.correct_index.isSome &&
      c.answer.isNone && c.text.isNone && c.cloze_items.isNone
  | _ => false

/-- The shape the claim requires for a given stored `card_type`. -/

def shapeOfType (t : Str) (d : CardData) : Bool :=
  if t = "basic".toList then isBasicShape d
  else if t = "cloze".toList then isClozeShape d
  else if t = "multiple_choice".toList then isMcShape d
  else false

/-- Card in exactly the canonical basic key pattern. -/

def canonicalBasic (c : Card) : Prop :=
  c.question.isSome ∧ c.answer.isSome ∧ c.text = none ∧ c.cloze_items = none ∧
    c.options = none

/-- Card in exactly the canonical cloze key pattern. -/

def canonicalCloze (c : Card) : Prop :=
  c.text.isSome ∧ c.cloze_items.isSome ∧ ¬(c.question.isSome ∧ c.answer.isSome)

/-- Card in exactly the canonical multiple-choice key pattern. -/

def canonicalMc (c : Card) : Prop :=
  c.question.isSome ∧ c.options.isSome ∧ c.answer = none ∧ c.text = none ∧
    c.cloze_items = none

/-- Canonical example cards for the C6 witness. -/

def c6BasicCard : Card := { question := some "q".toList, answer := some "a".toList }

def c6ClozeCard : Card := { text := some "t".toList, cloze_items := some [] }

def c6McCard : Card :=
  { question := some "q".toList, options := some [], correct_index := some 0 }

/-! ## Batch card persistence (`FlashcardDB.batch_create_flashcards`,
`business/database/flashcard_db.py`)

An input element of the `flashcards` list is a dict that may carry
`card_type`, `card_data`, `order_index` and the optional `section_id`,
`tags`, `notes` keys.  The source first validates the whole batch (returning
at the first offending card) and only then builds the insert list and issues
a single batch insert; the `flashcard` table is modelled as a list of rows,
and the collaborator insert is modelled as appending the rows (the claim
concerns the validation path, on which no insert happens). -/

structure InCard where
  card_type : Option Str := none
  card_data : Option CardData := none
  order_index : Option Int := none
  section_id : Option Str := none
  tags : Option (List Str) := none
  notes : Option Str := none
deriving DecidableEq, Repr

structure FlashcardRow where
  result_id : Str
  user_id : Str
  card_type : Str
  card_data : CardData
  order_index : Int
  is_deleted : Bool
  catalog_id : Option Str
  section_id : Option Str
  tags : Option (List Str)
  notes : Option Str
deriving DecidableEq, Repr

def validCardTypes : List Str := ["basic".toList, "cloze".toList, "multiple_choice".toList]

def errMissingField (idx : Nat) (field : Str) : Str :=
  "闪卡 ".toList ++ natDecStr idx ++ " 缺少 ".toList ++ field ++ " 字段".toList

def errInvalidCardType (idx : Nat) (t : Str) : Str :=
  "闪卡 ".toList ++ natDecStr idx ++ " 的 card_type 无效: ".toList ++ t

/-- The validation loop of `batch_create_flashcards`: per card, in order,
missing `card_type`, invalid `card_type`, missing `card_data`, missing
`order_index`; the first failing check returns its error and stops. -/

def validateFlashcards : Nat → List InCard → Option Str
  | _, [] => none
  | idx, card :: rest =>
    if card.card_type = none then some (errMissingField idx "card_type".toList)
    else if card.card_type.getD [] ∉ validCardTypes then
      some (errInvalidCardType idx (card.card_type.getD []))
    else if card.card_data = none then some (errMissingField idx "card_data".toList)
    else if card.order_index = none then some (errMissingField idx "order_index".toList)
    else validateFlashcards (idx + 1) rest

/-- One row of the insert list (after validation every accessed key is
present, so the `getD` defaults are never reached).  `if catalog_id:` is a
truthiness test, so an empty-string catalog id is not copied. -/

def buildInsertRow (result_id user_id : Str) (catalog_id : Option Str)
    (card : InCard) : FlashcardRow :=
  { result_id := result_id, user_id := user_id,
    card_type := card.card_type.getD [],
    card_data := card.card_data.getD (.rawData {}),
    order_index := card.order_index.getD 0,
    is_deleted := false,
    catalog_id := if catalog_id ≠ none ∧ catalog_id ≠ some [] then catalog_id else none,
    section_id := card.section_id, tags := card.tags, notes := card.notes }

structure BatchResult where
  success : Bool
  error : Option Str
  count : Option Nat
deriving DecidableEq, Repr

/-- Embeds `FlashcardDB.batch_create_flashcards` over an explicit table
state.  The collaborator insert (assumed to succeed) appends the built rows. -/

def batch_create_flashcards (table : List FlashcardRow) (result_id user_id : Str)
    (flashcards : List InCard) (catalog_id : Option Str) :
    BatchResult × List FlashcardRow :=
  match validateFlashcards 0 flashcards with
  | some err => ({ success := false, error := some err, count := none }, table)
  | none =>
    ({ success := true, error := none, count := some flashcards.length },
     table ++ flashcards.map (buildInsertRow result_id user_id catalog_id))

/-- A card that fails one of the four validation checks. -/

def offendingCard (c : InCard) : Prop :=
  c.card_type = none ∨ c.card_type.getD [] ∉ validCardTypes ∨ c.card_data = none ∨
    c.order_index = none

instance (c : InCard) : Decidable (offendingCard c) := by
  unfold offendingCard; infer_instance

/-- The first offending card of the batch, with its index (spec-side
description of "the first offending card's index"). -/

def firstOffender : Nat → List InCard → Option (Nat × InCard)
  | _, [] => none
  | idx, c :: rest =>
    if offendingCard c then some (idx, c) else firstOffender (idx + 1) rest

/-- The error message the per-card check order produces for an offending card. -/

def offenseMsg (idx : Nat) (c : InCard) : Str :=
  if c.card_type = none then errMissingField idx "card_type".toList
  else if c.card_type.getD [] ∉ validCardTypes then
    errInvalidCardType idx (c.card_type.getD [])
  else if c.card_data = none then errMissingField idx "card_data".toList
  else errMissingField idx "order_index".toList

/-- Witness for C10: a one-card batch whose card has an invalid type. -/

def c10BadCard : InCard :=
  { card_type := some "bogus".toList, card_data := some (.rawData {}), order_index := some 0 }

/-! ## Task model and validation (`TaskManager`, `business/task_manager.py`)

A task row of the `task_info` table.  `input_data.file.info` holds the
cached uploaded-media references (a list of opaque media refs, modelled as
strings); `input_data.file.name` the original file name. -/

structure InputFileData where
  info : Option (List Str) := none
  name : Option Str := none
deriving DecidableEq, Repr

structure InputData where
  file : Option InputFileData := none
deriving DecidableEq, Repr

structure TaskRow where
  id : Str
  user_id : Str
  task_type : Str
  workflow_type : Str
  status : Str
  input_data : InputData
deriving DecidableEq, Repr

abbrev TaskTable := List TaskRow

/-- Embeds `DatabaseService.select` on `task_info` with an id filter:
equality-filtered read. -/

def selectTasks (db : TaskTable) (task_id : Str) : List TaskRow :=
  db.filter fun t => decide (t.id = task_id)

/-- Embeds `TaskManager.get_task`: first row of the filtered select when the
count is positive, else `None`. -/

def get_task (db : TaskTable) (task_id : Str) : Option TaskRow :=
  (selectTasks db task_id).head?

structure ValidationResult where
  valid : Bool
  task : Option TaskRow
  error : Option Str
deriving DecidableEq, Repr

def errTaskNotFound : Str := "任务不存在".toList

def errTaskTypeMismatch (expected actual : Str) : Str :=
  "任务类型不匹配，期望: ".toList ++ expected ++ ", 实际: ".toList ++ actual

def errWorkflowTypeMismatch (expected actual : Str) : Str :=
  "工作流类型不匹配，期望: ".toList ++ expected ++ ", 实际: ".toList ++ actual

def errTaskFinished (status : Str) : Str := "任务已结束，当前状态: ".toList ++ status

/-- Python truthiness of an optional-string parameter (`if expected_task_type
and ...`): `None` and the empty string are falsy. -/

def pyTruthyOpt : Option Str → Bool
  | none => false
  | some s => !s.isEmpty

/-- Embeds `TaskManager.validate_task` over an explicit table state.  The
function only reads (`get_task` is a filtered select); the returned state is
the input table, mirroring the absence of any update call in the source. -/

def validate_task (db : TaskTable) (task_id : Str) (expected_task_type : Option Str)
    (expected_workflow_type : Option Str) : ValidationResult × TaskTable :=
  match get_task db task_id with
  | none => ({ valid := false, task := none, error := some errTaskNotFound }, db)
  | some task =>
    if pyTruthyOpt expected_task_type = true ∧ task.task_type ≠ expected_task_type.getD [] then
      ({ valid := false, task := none,
         error := some (errTaskTypeMismatch (expected_task_type.getD []) task.task_type) }, db)
    else if pyTruthyOpt expected_workflow_type = true ∧
        task.workflow_type ≠ expected_workflow_type.getD [] then
      ({ valid := false, task := none,
         error := some (errWorkflowTypeMismatch (expected_workflow_type.getD [])
           task.workflow_type) }, db)
    else if task.status = "completed".toList ∨ task.status = "failed".toList then
      ({ valid := false, task := none, error := some (errTaskFinished task.status) }, db)
    else ({ valid := true, task := some task, error := none }, db)

/-- A concrete task row used by the C4 witness: a text task in a
non-terminal state. -/

def c4Task : TaskRow :=
  { id := "t1".toList, user_id := "u".toList, task_type := "text".toList,
    workflow_type := "direct_generate".toList, status := "created".toList,
    input_data := {} }

/-! ## Multi-section generation
(`FlashcardBusiness.generate_flashcards_from_file_section_by_ids`,
`business/flashcard.py` lines 926–1167)

The operation is meant to resolve the selected leaf sections, fan out one AI
call per section and aggregate the per-section results (lines 1057–1157),
but step 5 (line 1039) invokes `catalog_service.get_catalog_from_file`, a
method that does not exist on `CatalogService` (`business/catalog.py`
defines only `analyze_catalog_from_topic`, `analyze_catalog_from_text` and
`analyze_catalog_from_file`).  Every execution that passes the guards
therefore raises `AttributeError` and lands in the `except` at line 1159,
which writes status `failed` and returns `success = False` with no cards and
an empty `section_results` — the aggregation loop is unreachable and no
per-section AI call is ever made.  The model below follows the code,
including this failure path. -/

structure SectionResult where
  section_title : Str
  cards : List Card
  count : Nat
deriving DecidableEq, Repr

structure GenResult where
  success : Bool
  error : Option Str
  cards : List Card
  section_results : List SectionResult
deriving DecidableEq, Repr

/-- The `str(e)` recorded by the `except` at line 1159: the text of the
`AttributeError` raised because `CatalogService` has no
`get_catalog_from_file` method.  (Python's message wraps the class and
attribute names in single quotes; they are omitted here.) -/
def attributeErrorMsg : Str :=
  "CatalogService object has no attribute get_catalog_from_file".toList

/-! ## Uploaded-media caching (C8)

Effect-trace embeddings of the collaborator calls issued by
`CatalogService.analyze_catalog_from_file` (`business/catalog.py` 97–182),
`FlashcardBusiness.generate_flashcards_from_file` (`business/flashcard.py`
319–458), `FlashcardBusiness.generate_flashcards_from_file_section`
(765–924) and the upload phase of
`generate_flashcards_from_file_section_by_ids` (946–1034).  Status writes,
the file upload, the `input_data` persistence write and the AI chat call are
recorded as effects in program order; the`upload_files` return value and
the parsed-list outcome of the AI round trip are collaborator parameters.
The flashcard-result persistence steps (which touch neither `input_data` nor
the upload decision) are not modelled. -/

inductive Effect where
  | statusUpdate (status : Str)
  | uploadFiles (paths : List Str)
  | persistFileInfo (refs : List Str)
  | aiChatWithMedia (media : List Str)
deriving DecidableEq, Repr

/-- The assignment of the media references into the file-info slot followed by the keyed update of
the task row, as performed by `analyze_catalog_from_file`. -/

def cacheFileInfo (refs : List Str) (t : TaskRow) : TaskRow :=
  { t with input_data := { t.input_data with
      file := some { (t.input_data.file.getD {}) with info := some refs } } }

def updateTaskInputFileInfo (db : TaskTable) (task_id : Str) (refs : List Str) :
    TaskTable :=
  db.map fun t => if t.id = task_id then cacheFileInfo refs t else t

/-- The cached media reference of a task, as read by the section-generation
steps: `task.get('input_data', {}).get('file', {}).get('info')`. -/

def cachedMedia (t : TaskRow) : List Str :=
  (t.input_data.file.bind (·.info)).getD []

/-- Embeds `CatalogService.analyze_catalog_from_file`: always uploads, then
persists the returned media references into `input_data.file.info` when the
task row exists, then proceeds to the AI call and the `catalog_ready` status. -/

def analyze_catalog_from_file (db : TaskTable) (task_id filePath : Str)
    (uploadRefs : List Str) : List Effect × TaskTable :=
  if task_id = [] then ([], db)
  else
    match get_task db task_id with
    | some _ =>
      ([Effect.statusUpdate "file_uploading".toList, Effect.uploadFiles [filePath],
        Effect.persistFileInfo uploadRefs, Effect.statusUpdate "ai_processing".toList,
        Effect.statusUpdate "generating_catalog".toList, Effect.aiChatWithMedia uploadRefs,
        Effect.statusUpdate "catalog_ready".toList],
       updateTaskInputFileInfo db task_id uploadRefs)
    | none =>
      ([Effect.statusUpdate "file_uploading".toList, Effect.uploadFiles [filePath],
        Effect.statusUpdate "ai_processing".toList,
        Effect.statusUpdate "generating_catalog".toList, Effect.aiChatWithMedia uploadRefs,
        Effect.statusUpdate "catalog_ready".toList], db)

/-- Embeds `FlashcardBusiness.generate_flashcards_from_file`: the function
never reads the task row (it takes no task-table input), so it uploads the
file unconditionally and never persists the returned reference. -/

def generate_flashcards_from_file (task_id filePath : Str) (fileExists : Bool)
    (uploadRefs : List Str) (parsedIsList : Bool) : List Effect :=
  if task_id = [] then []
  else if filePath = [] then [Effect.statusUpdate "failed".toList]
  else if fileExists = false then [Effect.statusUpdate "failed".toList]
  else
    [Effect.statusUpdate "file_uploading".toList, Effect.uploadFiles [filePath],
     Effect.statusUpdate "ai_processing".toList,
     Effect.statusUpdate "generating_cards".toList, Effect.aiChatWithMedia uploadRefs] ++
    (if parsedIsList then [Effect.statusUpdate "completed".toList]
     else [Effect.statusUpdate "failed".toList])

/-- Embeds `FlashcardBusiness.generate_flashcards_from_file_section`: when
`input_data.file.info` holds a truthy cached reference the upload is skipped
and the cached reference is used for the chat call; otherwise the file is
uploaded (without persisting the new reference). -/

def generate_flashcards_from_file_section (db : TaskTable) (task_id : Str)
    (filePath : Option Str) (sectionTitle : Str) (fileExists : Bool)
    (uploadRefs : List Str) (parsedIsList : Bool) : List Effect :=
  if task_id = [] then []
  else if pyStrip sectionTitle = [] then [Effect.statusUpdate "failed".toList]
  else
    match get_task db task_id with
    | none => []
    | some task =>
      if cachedMedia task ≠ [] then
        [Effect.statusUpdate "ai_processing".toList,
         Effect.statusUpdate "generating_cards".toList,
         Effect.aiChatWithMedia (cachedMedia task)] ++
        (if parsedIsList then [Effect.statusUpdate "completed".toList]
         else [Effect.statusUpdate "failed".toList])
      else if filePath.getD [] = [] then [Effect.statusUpdate "failed".toList]
      else if fileExists = false then [Effect.statusUpdate "failed".toList]
      else
        [Effect.statusUpdate "file_uploading".toList,
         Effect.uploadFiles [filePath.getD []],
         Effect.statusUpdate "ai_processing".toList,
         Effect.statusUpdate "generating_cards".toList,
         Effect.aiChatWithMedia uploadRefs] ++
        (if parsedIsList then [Effect.statusUpdate "completed".toList]
         else [Effect.statusUpdate "failed".toList])

/-- Embeds the upload phase (steps 1–4, lines 946–1034) of
`generate_flashcards_from_file_section_by_ids`, identical in shape to the
single-section variant; the end-to-end model of the whole operation is
`generate_flashcards_from_file_section_by_ids` below. -/

def generate_by_ids_upload_phase (db : TaskTable) (task_id : Str)
    (filePath : Option Str) (chapter_ids : List Str) (fileExists : Bool)
    (uploadRefs : List Str) : List Effect :=
  if task_id = [] then []
  else if chapter_ids = [] then [Effect.statusUpdate "failed".toList]
  else
    match get_task db task_id with
    | none => []
    | some task =>
      if cachedMedia task ≠ [] then
        [Effect.statusUpdate "ai_processing".toList,
         Effect.statusUpdate "generating_cards".toList]
      else if filePath.getD [] = [] then [Effect.statusUpdate "failed".toList]
      else if fileExists = false then [Effect.statusUpdate "failed".toList]
      else
        [Effect.statusUpdate "file_uploading".toList,
         Effect.uploadFiles [filePath.getD []],
         Effect.statusUpdate "ai_processing".toList,
         Effect.statusUpdate "generating_cards".toList]

/-- Does a trace contain an upload call? -/

def hasUpload (trace : List Effect) : Bool :=
  trace.any fun e => match e with
    | Effect.uploadFiles _ => true
    | _ => false

/-- A task whose `input_data.file.info` already holds an uploaded media
reference. -/

def c8CachedTask : TaskRow :=
  { id := "t8".toList, user_id := "u".toList, task_type := "file".toList,
    workflow_type := "extract_catalog".toList, status := "catalog_ready".toList,
    input_data := { file := some { info := some ["media1".toList],
                                   name := some "f.pdf".toList } } }

/-- A task with no cached media reference. -/

def c8UncachedTask : TaskRow :=
  { id := "t9".toList, user_id := "u".toList, task_type := "file".toList,
    workflow_type := "extract_catalog".toList, status := "created".toList,
    input_data := {} }

/-! ## Anki export (`AnkiExporter`, `utils/anki_exporter.py`)

`json_to_anki_pkg` partitions the non-deleted cards by `card_type` and turns
each into a genanki note (a model name plus a list of field strings);
`json_to_csv` writes one `(card_type, content, tags)` row per non-deleted
card.  The `.apkg`/CSV file encodings themselves are owned by external
libraries (genanki, csv) and are not modelled: the note fields and the row
strings are the boundary.  The decoders (`decodeBasicCsv`,
`decodeChoiceCsv`, `decodeChoiceFields`, `brSplit`, `splitAllChar`) are
verification-side constructions used to state that the encodings are
lossless ("reading the exported content back"). -/

/-- Python `chr(65 + i)` — the option label letter. -/

def letterChar (i : Nat) : Char := Char.ofNat (65 + i)

/-- Python `sep.join(parts)`. -/

def joinSep (sep : Str) : List Str → Str
  | [] => []
  | [l] => l
  | l :: ls => l ++ sep ++ joinSep sep ls

/-- The labelled option lines `f"{chr(65+i)}. {opt}"` of
`enumerate(options)`. -/

def choiceLines : Nat → List Str → List Str
  | _, [] => []
  | i, o :: os => (letterChar i :: '.' :: ' ' :: o) :: choiceLines (i + 1) os

/-- Reads `card_data.get('question', '')` on the stored payload. -/

def dataQuestion : CardData → Str
  | .basicData q _ => q
  | .mcData q _ _ => q
  | .rawData c => c.question.getD []
  | _ => []

/-- Reads `card_data.get('answer', '')`. -/

def dataAnswer : CardData → Str
  | .basicData _ a => a
  | .rawData c => c.answer.getD []
  | _ => []

/-- Reads `card_data.get('text', '')`. -/

def dataText : CardData → Str
  | .clozeData t _ => t
  | .rawData c => c.text.getD []
  | _ => []

/-- Reads `card_data.get('options', [])`. -/

def dataOptions : CardData → List Str
  | .mcData _ o _ => o
  | .rawData c => c.options.getD []
  | _ => []

/-- Reads `card_data.get('correct_index', 0)`. -/

def dataCorrectIndex : CardData → Nat
  | .mcData _ _ i => i
  | .rawData c => c.correct_index.getD 0
  | _ => 0

/-- The CSV `content` column for one card, by `card_type`
(`json_to_csv`, lines 164–180). -/

def csvContent (card_type : Str) (d : CardData) : Str :=
  if card_type = "basic".toList then
    "Q: ".toList ++ dataQuestion d ++ "\nA: ".toList ++ dataAnswer d
  else if card_type = "cloze".toList then dataText d
  else if card_type = "multiple_choice".toList then
    "Q: ".toList ++ dataQuestion d ++ ['\n'] ++
      joinSep ['\n'] (choiceLines 0 (dataOptions d)) ++
      "\nCorrect: ".toList ++
      (if dataCorrectIndex d < (dataOptions d).length then
        letterChar (dataCorrectIndex d) :: '.' :: ' ' :: (dataOptions d).getD
          (dataCorrectIndex d) []
      else [])
  else []

/-- Note fields of a basic card (`_add_basic_cards`). -/

def pkgFieldsBasic (d : CardData) : List Str := [dataQuestion d, dataAnswer d]

/-- Note fields of a cloze card (`_add_cloze_cards`): the text plus an empty
`Extra` field; `cloze_items` is not written. -/

def pkgFieldsCloze (d : CardData) : List Str := [dataText d, []]

/-- Note fields of a multiple-choice card (`_add_choice_cards`): question,
`<br>`-joined labelled options, and the labelled correct answer (falling
back to the bare first option when the index is out of range). -/

def pkgFieldsChoice (d : CardData) : List Str :=
  [dataQuestion d,
   joinSep "<br>".toList (choiceLines 0 (dataOptions d)),
   if dataCorrectIndex d < (dataOptions d).length then
     letterChar (dataCorrectIndex d) :: '.' :: ' ' :: (dataOptions d).getD
       (dataCorrectIndex d) []
   else (dataOptions d).headD []]

structure ExportCard where
  card_type : Str
  card_data : CardData
  is_deleted : Bool := false
  tags : Option (List Str) := none
deriving DecidableEq, Repr

/-- Embeds `json_to_anki_pkg` up to the note boundary: the non-deleted cards
grouped by type (basic, then cloze, then multiple-choice, as the source adds
the groups), each as `(model name, fields)`. -/

def json_to_anki_pkg (cards : List ExportCard) : List (Str × List Str) :=
  ((cards.filter fun c => decide (c.card_type = "basic".toList) && !c.is_deleted).map
    fun c => ("Basic Card".toList, pkgFieldsBasic c.card_data)) ++
  ((cards.filter fun c => decide (c.card_type = "cloze".toList) && !c.is_deleted).map
    fun c => ("Cloze Card".toList, pkgFieldsCloze c.card_data)) ++
  ((cards.filter fun c =>
      decide (c.card_type = "multiple_choice".toList) && !c.is_deleted).map
    fun c => ("Multiple Choice Card".toList, pkgFieldsChoice c.card_data))

/-- Embeds `json_to_csv` up to the row boundary: one
`(card_type, content, tags)` row per non-deleted card, in order. -/

def json_to_csv (cards : List ExportCard) : List (Str × Str × Str) :=
  (cards.filter fun c => !c.is_deleted).map fun c =>
    (c.card_type, csvContent c.card_type c.card_data,
     if (c.tags.getD []) ≠ [] then joinSep ", ".toList (c.tags.getD [])
     else "anki_genix".toList)

/-- Split at the first occurrence of a character. -/

def splitAtChar (c : Char) : Str → Option (Str × Str)
  | [] => none
  | x :: xs =>
    if x = c then some ([], xs)
    else (splitAtChar c xs).map fun p => (x :: p.1, p.2)

/-- Split at every occurrence of a character (like Python `str.split(c)`). -/

def splitAllChar (c : Char) : Str → List Str
  | [] => [[]]
  | x :: xs =>
    if x = c then [] :: splitAllChar c xs
    else
      match splitAllChar c xs with
      | [] => [[x]]
      | l :: ls => (x :: l) :: ls

/-- Split at every occurrence of the 4-character separator `"<br>"`. -/

def brSplit (s : Str) : List Str :=
  match s with
  | [] => [[]]
  | x :: xs =>
    if x = '<' ∧ "br>".toList.isPrefixOf xs then [] :: brSplit (xs.drop 3)
    else
      match brSplit xs with
      | [] => [[x]]
      | l :: ls => (x :: l) :: ls
termination_by s.length
decreasing_by
  · simp only [List.length_cons, List.length_drop]
    omega
  · simp only [List.length_cons]
    omega

/-- Read a basic card's question and answer back from its CSV content. -/

def decodeBasicCsv (content : Str) : Option (Str × Str) :=
  if "Q: ".toList.isPrefixOf content then
    match splitAtChar '\n' (content.drop 3) with
    | some (q, r) => if "A: ".toList.isPrefixOf r then some (q, r.drop 3) else none
    | none => none
  else none

/-- Read a multiple-choice card's question, options and correct index back
from its CSV content. -/

def decodeChoiceCsv (content : Str) : Option (Str × List Str × Nat) :=
  match splitAllChar '\n' content with
  | [] => none
  | qline :: rest =>
    if "Q: ".toList.isPrefixOf qline then
      match rest.getLast? with
      | none => none
      | some correctLine =>
        if "Correct: ".toList.isPrefixOf correctLine then
          match correctLine.drop 9 with
          | [] => none
          | letter :: _ =>
            some (qline.drop 3, rest.dropLast.map (·.drop 3), letter.toNat - 65)
        else none
    else none

/-- Read a multiple-choice card's question, options and correct index back
from its deck-package note fields. -/

def decodeChoiceFields (fields : List Str) : Option (Str × List Str × Nat) :=
  match fields with
  | [q, options_str, answer] =>
    match answer with
    | letter :: _ => some (q, (brSplit options_str).map (·.drop 3), letter.toNat - 65)
    | [] => none
  | _ => none

/-- Two distinct basic cards whose CSV rows coincide. -/

def c7CardA : ExportCard :=
  { card_type := "basic".toList, card_data := .basicData "x\nA: y".toList "z".toList }

def c7CardB : ExportCard :=
  { card_type := "basic".toList, card_data := .basicData "x".toList "y\nA: z".toList }

def c7Basic (q a : Str) : ExportCard :=
  { card_type := "basic".toList, card_data := .basicData q a }

def c7Cloze (t : Str) (items : List Str) : ExportCard :=
  { card_type := "cloze".toList, card_data := .clozeData t items }

def c7Choice (q : Str) (opts : List Str) (ci : Nat) : ExportCard :=
  { card_type := "multiple_choice".toList, card_data := .mcData q opts ci }

/-- Embeds `FlashcardBusiness.generate_flashcards_from_file_section_by_ids`
(`business/flashcard.py` 926–1167) end to end: the task-id, chapter-ids,
task-lookup and file guards, the cached-media check, the upload, the status
writes — and then the call at line 1039 to the nonexistent
`CatalogService.get_catalog_from_file`, which raises `AttributeError` on
every run that reaches it; the enclosing `except` (line 1159) writes status
`failed` and returns the failure payload with the exception text as the
error.  The second component is the effect trace. -/
def generate_flashcards_from_file_section_by_ids (db : TaskTable) (task_id : Str)
    (filePath : Option Str) (chapter_ids : List Str) (fileExists : Bool)
    (uploadRefs : List Str) : GenResult × List Effect :=
  if task_id = [] then
    ({ success := false, error := some "task_id为必填参数".toList, cards := [],
       section_results := [] }, [])
  else if chapter_ids = [] then
    ({ success := false, error := some "章节ID列表不能为空".toList, cards := [],
       section_results := [] }, [Effect.statusUpdate "failed".toList])
  else
    match get_task db task_id with
    | none =>
      ({ success := false, error := some "任务不存在".toList, cards := [],
         section_results := [] }, [])
    | some task =>
      if cachedMedia task ≠ [] then
        ({ success := false, error := some attributeErrorMsg, cards := [],
           section_results := [] },
         [Effect.statusUpdate "ai_processing".toList,
          Effect.statusUpdate "generating_cards".toList,
          Effect.statusUpdate "failed".toList])
      else if filePath.getD [] = [] then
        ({ success := false, error := some "文件路径不能为空".toList, cards := [],
           section_results := [] }, [Effect.statusUpdate "failed".toList])
      else if fileExists = false then
        ({ success := false, error := some "文件不存在".toList, cards := [],
           section_results := [] }, [Effect.statusUpdate "failed".toList])
      else
        ({ success := false, error := some attributeErrorMsg, cards := [],
           section_results := [] },
         [Effect.statusUpdate "file_uploading".toList,
          Effect.uploadFiles [filePath.getD []],
          Effect.statusUpdate "ai_processing".toList,
          Effect.statusUpdate "generating_cards".toList,
          Effect.statusUpdate "failed".toList])

/-- A file task with a cached media reference, the input of the claimed
partial-failure scenario. -/
def c2FailTask : TaskRow :=
  { id := "t2".toList, user_id := "u".toList, task_type := "file".toList,
    workflow_type := "extract_catalog".toList, status := "catalog_ready".toList,
    input_data := { file := some { info := some ["m1".toList],
                                   name := some "f.pdf".toList } } }

/-! ## Theorems -/


theorem natDecStr_ne_nil (n : Nat) : natDecStr n ≠ [] := by
  unfold natDecStr
  split
  · simp
  · rename_i h
    simp [Nat.digits_ne_nil_iff_ne_zero, h]

theorem digitChar_ne_dot : ∀ d < 10, Nat.digitChar d ≠ '.' := by decide

theorem digitChar_inj : ∀ d₁ < 10, ∀ d₂ < 10,
    Nat.digitChar d₁ = Nat.digitChar d₂ → d₁ = d₂ := by decide

/-- Decimal strings never contain the `'.'` separator character. -/
theorem dot_not_mem_natDecStr (n : Nat) : '.' ∉ natDecStr n := by
  unfold natDecStr
  split
  · decide
  · intro hmem
    rw [List.mem_reverse, List.mem_map] at hmem
    obtain ⟨d, hd, hchar⟩ := hmem
    exact digitChar_ne_dot d (Nat.digits_lt_base (by norm_num) hd) hchar

theorem map_digitChar_inj {l₁ l₂ : List Nat}
    (h₁ : ∀ x ∈ l₁, x < 10) (h₂ : ∀ x ∈ l₂, x < 10)
    (h : l₁.map Nat.digitChar = l₂.map Nat.digitChar) : l₁ = l₂ := by
  induction l₁ generalizing l₂ with
  | nil => cases l₂ <;> simp_all
  | cons a t ih =>
    cases l₂ with
    | nil => simp_all
    | cons b t₂ =>
      simp only [List.map_cons, List.cons.injEq] at h
      have ha := h₁ a (List.mem_cons_self a t)
      have hb := h₂ b (List.mem_cons_self b t₂)
      refine List.cons_eq_cons.mpr ⟨digitChar_inj a ha b hb h.1, ?_⟩
      exact ih (fun x hx => h₁ x (List.mem_cons_of_mem a hx))
        (fun x hx => h₂ x (List.mem_cons_of_mem b hx)) h.2

/-- The only natural whose decimal string is `"0"` is zero. -/
theorem natDecStr_eq_zero_str {m : Nat} (h : natDecStr m = ['0']) : m = 0 := by
  by_contra hm
  unfold natDecStr at h
  rw [if_neg hm] at h
  have h' : (Nat.digits 10 m).map Nat.digitChar = ['0'] := by
    have := congrArg List.reverse h
    simpa using this
  rcases hd : Nat.digits 10 m with _ | ⟨d, rest⟩
  · rw [hd] at h'; simp at h'
  · rw [hd] at h'
    cases rest with
    | nil =>
      simp only [List.map_cons, List.map_nil, List.cons.injEq, and_true] at h'
      have hdlt : d < 10 := Nat.digits_lt_base (by norm_num) (hd ▸ List.mem_cons_self d [])
      have hd0 : d = 0 := digitChar_inj d hdlt 0 (by norm_num) (by rw [h']; rfl)
      have hdef := Nat.digits_def' (b := 10) (by norm_num) (Nat.pos_of_ne_zero hm)
      rw [hd] at hdef
      simp only [List.cons.injEq] at hdef
      obtain ⟨h1, h2⟩ := hdef
      have hdiv : m / 10 = 0 := Nat.digits_eq_nil_iff_eq_zero.mp h2.symm
      omega
    | cons d₂ r₂ => simp at h'

/-- Decimal representation is injective. -/
theorem natDecStr_inj {n m : Nat} (h : natDecStr n = natDecStr m) : n = m := by
  by_cases hn : n = 0 <;> by_cases hm : m = 0
  · omega
  · rw [hn]
    refine (natDecStr_eq_zero_str ?_).symm
    rw [← h, hn]; rfl
  · rw [hm]
    exact natDecStr_eq_zero_str (by rw [h, hm]; rfl)
  · unfold natDecStr at h
    rw [if_neg hn, if_neg hm] at h
    have h' := congrArg List.reverse h
    simp only [List.reverse_reverse] at h'
    have := map_digitChar_inj
      (fun x hx => Nat.digits_lt_base (by norm_num) hx)
      (fun x hx => Nat.digits_lt_base (by norm_num) hx) h'
    calc n = Nat.ofDigits 10 (Nat.digits 10 n) := (Nat.ofDigits_digits 10 n).symm
      _ = Nat.ofDigits 10 (Nat.digits 10 m) := by rw [this]
      _ = m := Nat.ofDigits_digits 10 m

/-- Unique-prefix lemma for separator-delimited strings: if `a` and `b` contain
no `'.'` and each remainder is either empty or starts with `'.'`, then equal
concatenations force equal components. -/
theorem dotfree_prefix_eq {a b ra rb : Str}
    (ha : '.' ∉ a) (hb : '.' ∉ b)
    (hra : ra = [] ∨ ∃ r, ra = '.' :: r) (hrb : rb = [] ∨ ∃ r, rb = '.' :: r)
    (h : a ++ ra = b ++ rb) : a = b ∧ ra = rb := by
  induction a generalizing b with
  | nil =>
    cases b with
    | nil => simpa using h
    | cons c bt =>
      exfalso
      simp only [List.nil_append, List.cons_append] at h
      rcases hra with hra | ⟨r, hra⟩
      · subst hra
        exact absurd h.symm (by simp)
      · subst hra
        have : c = '.' := by
          have := congrArg (List.head? ·) h
          simpa using this.symm
        exact hb (this ▸ List.mem_cons_self c bt)
  | cons c at' ih =>
    cases b with
    | nil =>
      exfalso
      simp only [List.nil_append, List.cons_append] at h
      rcases hrb with hrb | ⟨r, hrb⟩
      · subst hrb
        exact absurd h (by simp)
      · subst hrb
        have : c = '.' := by
          have := congrArg (List.head? ·) h
          simpa using this
        exact ha (this ▸ List.mem_cons_self c at')
    | cons d bt =>
      simp only [List.cons_append, List.cons.injEq] at h
      obtain ⟨rfl, h2⟩ := h
      have := ih (fun hx => ha (List.mem_cons_of_mem c hx))
        (fun hx => hb (List.mem_cons_of_mem c hx)) h2
      exact ⟨by rw [this.1], this.2⟩

theorem genSub_id_mem {sectionId : Str} {i : Nat} {l : List SubNode} {x : Str}
    (hx : x ∈ (genSubsectionIds sectionId i l).map (·.id)) :
    ∃ d, i ≤ d ∧ x = sectionId ++ '.' :: natDecStr d := by
  induction l generalizing i with
  | nil => simp [genSubsectionIds] at hx
  | cons u rest ih =>
    simp only [genSubsectionIds, List.map_cons, List.mem_cons] at hx
    rcases hx with rfl | hx
    · exact ⟨i, Nat.le_refl i, rfl⟩
    · obtain ⟨d, hd, rfl⟩ := ih hx
      exact ⟨d, by omega, rfl⟩

theorem genSub_ids_nodup (sectionId : Str) (i : Nat) (l : List SubNode) :
    ((genSubsectionIds sectionId i l).map (·.id)).Nodup := by
  induction l generalizing i with
  | nil => simp [genSubsectionIds]
  | cons u rest ih =>
    simp only [genSubsectionIds, List.map_cons, List.nodup_cons]
    refine ⟨fun hmem => ?_, ih (i + 1)⟩
    obtain ⟨d, hd, heq⟩ := genSub_id_mem hmem
    have h2 : ('.' :: natDecStr i : Str) = '.' :: natDecStr d := List.append_cancel_left heq
    have : i = d := natDecStr_inj (List.cons_eq_cons.mp h2).2
    omega

/-- Every id in a generated section block is the chapter id, a dot, then a
decimal component `≥ j` followed by an empty or dot-initial remainder. -/
theorem genSec_id_mem {chapterId : Str} {j : Nat} {l : List SecNode} {x : Str}
    (hx : x ∈ collectSecIds (genSectionIds chapterId j l)) :
    ∃ d, j ≤ d ∧ ∃ rest, x = chapterId ++ '.' :: (natDecStr d ++ rest) ∧
      (rest = [] ∨ ∃ r, rest = '.' :: r) := by
  induction l generalizing j with
  | nil => simp [genSectionIds, collectSecIds] at hx
  | cons s rest ih =>
    simp only [genSectionIds, collectSecIds, List.flatMap_cons, List.mem_append,
      List.mem_cons] at hx
    rcases hx with (rfl | hx) | hx
    · exact ⟨j, Nat.le_refl j, [], by simp, Or.inl rfl⟩
    · obtain ⟨d, _, heq⟩ := genSub_id_mem hx
      refine ⟨j, Nat.le_refl j, '.' :: natDecStr d, ?_, Or.inr ⟨natDecStr d, rfl⟩⟩
      simp [heq]
    · obtain ⟨d, hd, r, hr, hor⟩ := ih hx
      exact ⟨d, by omega, r, hr, hor⟩

theorem collectSecIds_genSec_cons (chapterId : Str) (j : Nat) (s : SecNode)
    (rest : List SecNode) :
    collectSecIds (genSectionIds chapterId j (s :: rest)) =
      ((chapterId ++ '.' :: natDecStr j) ::
        (genSubsectionIds (chapterId ++ '.' :: natDecStr j) 1 s.subsections).map (·.id)) ++
      collectSecIds (genSectionIds chapterId (j + 1) rest) := rfl

theorem genSec_ids_nodup (chapterId : Str) (j : Nat) (l : List SecNode) :
    (collectSecIds (genSectionIds chapterId j l)).Nodup := by
  induction l generalizing j with
  | nil => simp [genSectionIds, collectSecIds]
  | cons s rest ih =>
    rw [collectSecIds_genSec_cons, List.nodup_append]
    refine ⟨?_, ih (j + 1), ?_⟩
    · rw [List.nodup_cons]
      refine ⟨fun hmem => ?_, genSub_ids_nodup _ 1 _⟩
      obtain ⟨d, _, heq⟩ := genSub_id_mem hmem
      have hlen := congrArg List.length heq
      have hpos : 0 < (natDecStr d).length := List.length_pos.mpr (natDecStr_ne_nil d)
      simp only [List.length_append, List.length_cons] at hlen
      omega
    · intro a ha hb
      obtain ⟨d, hd, r, hr, hor⟩ := genSec_id_mem hb
      rcases List.mem_cons.mp ha with rfl | ha
      · have h3 := (List.cons_eq_cons.mp (List.append_cancel_left hr)).2
        have h4 := dotfree_prefix_eq (dot_not_mem_natDecStr j) (dot_not_mem_natDecStr d)
          (Or.inl rfl) hor (by simpa using h3)
        have : j = d := natDecStr_inj h4.1
        omega
      · obtain ⟨m, _, heq⟩ := genSub_id_mem ha
        rw [heq] at hr
        rw [List.append_assoc, List.cons_append] at hr
        have h3 := (List.cons_eq_cons.mp (List.append_cancel_left hr)).2
        have h4 := dotfree_prefix_eq (dot_not_mem_natDecStr j) (dot_not_mem_natDecStr d)
          (Or.inr ⟨natDecStr m, rfl⟩) hor h3
        have : j = d := natDecStr_inj h4.1
        omega

/-- Every id in a generated chapter block is a decimal component `≥ k`
followed by an empty or dot-initial remainder. -/
theorem genChap_id_mem {k : Nat} {cat : Catalog} {x : Str}
    (hx : x ∈ collectIds (generate_catalog_ids k cat)) :
    ∃ d, k ≤ d ∧ ∃ rest, x = natDecStr d ++ rest ∧ (rest = [] ∨ ∃ r, rest = '.' :: r) := by
  induction cat generalizing k with
  | nil => simp [generate_catalog_ids, collectIds] at hx
  | cons ch rest ih =>
    simp only [generate_catalog_ids, collectIds, List.flatMap_cons, List.mem_append,
      List.mem_cons] at hx
    rcases hx with (rfl | hx) | hx
    · exact ⟨k, Nat.le_refl k, [], by simp, Or.inl rfl⟩
    · obtain ⟨d, _, r, hr, _⟩ := genSec_id_mem hx
      exact ⟨k, Nat.le_refl k, '.' :: (natDecStr d ++ r), by simpa using hr,
        Or.inr ⟨natDecStr d ++ r, rfl⟩⟩
    · obtain ⟨d, hd, r, hr, hor⟩ := ih hx
      exact ⟨d, by omega, r, hr, hor⟩

theorem collectIds_gen_cons (k : Nat) (ch : ChapNode) (rest : List ChapNode) :
    collectIds (generate_catalog_ids k (ch :: rest)) =
      (natDecStr k :: collectSecIds (genSectionIds (natDecStr k) 1 ch.sections)) ++
      collectIds (generate_catalog_ids (k + 1) rest) := rfl

theorem genChap_ids_nodup (k : Nat) (cat : Catalog) :
    (collectIds (generate_catalog_ids k cat)).Nodup := by
  induction cat generalizing k with
  | nil => simp [generate_catalog_ids, collectIds]
  | cons ch rest ih =>
    rw [collectIds_gen_cons, List.nodup_append]
    refine ⟨?_, ih (k + 1), ?_⟩
    · rw [List.nodup_cons]
      refine ⟨fun hmem => ?_, genSec_ids_nodup _ 1 _⟩
      obtain ⟨d, _, r, hr, _⟩ := genSec_id_mem hmem
      exact dot_not_mem_natDecStr k (hr ▸ (by simp : '.' ∈ natDecStr k ++ '.' :: (natDecStr d ++ r)))
    · intro a ha hb
      obtain ⟨d, hd, r, hr, hor⟩ := genChap_id_mem hb
      rcases List.mem_cons.mp ha with rfl | ha
      · have h4 := dotfree_prefix_eq (dot_not_mem_natDecStr k) (dot_not_mem_natDecStr d)
          (Or.inl rfl) hor (by simpa using hr)
        have : k = d := natDecStr_inj h4.1
        omega
      · obtain ⟨m, _, r', hr', _⟩ := genSec_id_mem ha
        rw [hr'] at hr
        have h4 := dotfree_prefix_eq (dot_not_mem_natDecStr k) (dot_not_mem_natDecStr d)
          (Or.inr ⟨natDecStr m ++ r', rfl⟩) hor hr
        have : k = d := natDecStr_inj h4.1
        omega

theorem mem_checkChildrenSecs {sel : List Str} {x : Str} (l : List SecNode) (acc : List Str) :
    x ∈ checkChildrenSecs sel acc l ↔
      x ∈ acc ∨ (x ∈ sel ∧ ∃ s ∈ l, s.id = x ∧ ∃ u ∈ s.subsections, u.id ∈ sel) := by
  induction l generalizing acc with
  | nil => simp [checkChildrenSecs]
  | cons s rest ih =>
    rw [checkChildrenSecs, ih]
    by_cases hc : (s.subsections.any fun u => decide (u.id ∈ sel)) = true ∧ s.id ∈ sel
    · rw [if_pos hc]
      obtain ⟨hany, hsid⟩ := hc
      simp only [List.any_eq_true, decide_eq_true_eq] at hany
      constructor
      · rintro (hx | ⟨hxsel, s', hs', hrest⟩)
        · rcases List.mem_cons.mp hx with rfl | hx
          · exact Or.inr ⟨hsid, s, List.mem_cons_self s rest, rfl, hany⟩
          · exact Or.inl hx
        · exact Or.inr ⟨hxsel, s', List.mem_cons_of_mem s hs', hrest⟩
      · rintro (hx | ⟨hxsel, s', hs', hid, hu⟩)
        · exact Or.inl (List.mem_cons_of_mem _ hx)
        · rcases List.mem_cons.mp hs' with rfl | hs'
          · exact Or.inl (hid ▸ List.mem_cons_self s'.id acc)
          · exact Or.inr ⟨hxsel, s', hs', hid, hu⟩
    · rw [if_neg hc]
      constructor
      · rintro (hx | ⟨hxsel, s', hs', hrest⟩)
        · exact Or.inl hx
        · exact Or.inr ⟨hxsel, s', List.mem_cons_of_mem s hs', hrest⟩
      · rintro (hx | ⟨hxsel, s', hs', hid, u, hu, husel⟩)
        · exact Or.inl hx
        · rcases List.mem_cons.mp hs' with rfl | hs'
          · exact absurd ⟨List.any_eq_true.mpr ⟨u, hu, decide_eq_true husel⟩, hid ▸ hxsel⟩ hc
          · exact Or.inr ⟨hxsel, s', hs', hid, u, hu, husel⟩

theorem mem_revisitSelectedSecs {sel : List Str} {x : Str} (l : List SecNode) (acc : List Str) :
    x ∈ revisitSelectedSecs sel acc l ↔
      x ∈ acc ∨ (x ∈ sel ∧ ∃ s ∈ l, s.id = x ∧ ∃ u ∈ s.subsections, u.id ∈ sel) := by
  induction l generalizing acc with
  | nil => simp [revisitSelectedSecs]
  | cons s rest ih =>
    rw [revisitSelectedSecs, List.foldl_cons]
    rw [show ∀ a, List.foldl
      (fun a s => if s.id ∈ sel then checkChildrenSecs sel a [s] else a) a rest =
      revisitSelectedSecs sel a rest from fun a => rfl, ih]
    by_cases hsid : s.id ∈ sel
    · rw [if_pos hsid, mem_checkChildrenSecs]
      constructor
      · rintro ((hx | ⟨hxsel, s', hs', hrest⟩) | ⟨hxsel, s', hs', hrest⟩)
        · exact Or.inl hx
        · rcases List.mem_cons.mp hs' with rfl | hs'
          · exact Or.inr ⟨hxsel, s', List.mem_cons_self s' rest, hrest⟩
          · exact absurd hs' (List.not_mem_nil s')
        · exact Or.inr ⟨hxsel, s', List.mem_cons_of_mem s hs', hrest⟩
      · rintro (hx | ⟨hxsel, s', hs', hrest⟩)
        · exact Or.inl (Or.inl hx)
        · rcases List.mem_cons.mp hs' with rfl | hs'
          · exact Or.inl (Or.inr ⟨hxsel, s', List.mem_cons_self s' [], hrest⟩)
          · exact Or.inr ⟨hxsel, s', hs', hrest⟩
    · rw [if_neg hsid]
      constructor
      · rintro (hx | ⟨hxsel, s', hs', hrest⟩)
        · exact Or.inl hx
        · exact Or.inr ⟨hxsel, s', List.mem_cons_of_mem s hs', hrest⟩
      · rintro (hx | ⟨hxsel, s', hs', hid, hu⟩)
        · exact Or.inl hx
        · rcases List.mem_cons.mp hs' with rfl | hs'
          · exact absurd (hid ▸ hxsel) hsid
          · exact Or.inr ⟨hxsel, s', hs', hid, hu⟩

theorem mem_checkChildrenChaps {sel : List Str} {x : Str} (l : List ChapNode) (acc : List Str) :
    x ∈ checkChildrenChaps sel acc l ↔
      x ∈ acc ∨ ∃ ch ∈ l, chapBlockCond sel x ch := by
  induction l generalizing acc with
  | nil => simp [checkChildrenChaps]
  | cons ch rest ih =>
    rw [checkChildrenChaps, ih, mem_checkChildrenSecs]
    by_cases hc : (ch.sections.any fun s => decide (s.id ∈ sel)) = true ∧ ch.id ∈ sel
    · rw [if_pos hc]
      obtain ⟨hany, hchid⟩ := hc
      simp only [List.any_eq_true, decide_eq_true_eq] at hany
      constructor
      · rintro ((hx | ⟨hxsel, s', hs', hrest⟩) | ⟨ch', hch', hcond⟩)
        · rcases List.mem_cons.mp hx with rfl | hx
          · exact Or.inr ⟨ch, List.mem_cons_self ch rest, Or.inl ⟨rfl, hchid, hany⟩⟩
          · rcases (mem_revisitSelectedSecs ch.sections acc).mp hx with hx | ⟨hxsel, s', hs', hrest⟩
            · exact Or.inl hx
            · exact Or.inr ⟨ch, List.mem_cons_self ch rest, Or.inr ⟨hxsel, s', hs', hrest⟩⟩
        · exact Or.inr ⟨ch, List.mem_cons_self ch rest, Or.inr ⟨hxsel, s', hs', hrest⟩⟩
        · exact Or.inr ⟨ch', List.mem_cons_of_mem ch hch', hcond⟩
      · rintro (hx | ⟨ch', hch', hcond⟩)
        · exact Or.inl (Or.inl ((List.mem_cons_of_mem _
            ((mem_revisitSelectedSecs ch.sections acc).mpr (Or.inl hx)))))
        · rcases List.mem_cons.mp hch' with rfl | hch'
          · rcases hcond with ⟨rfl, _, _⟩ | ⟨hxsel, s', hs', hrest⟩
            · exact Or.inl (Or.inl (List.mem_cons_self ch'.id _))
            · exact Or.inl (Or.inr ⟨hxsel, s', hs', hrest⟩)
          · exact Or.inr ⟨ch', hch', hcond⟩
    · rw [if_neg hc]
      constructor
      · rintro ((hx | ⟨hxsel, s', hs', hrest⟩) | ⟨ch', hch', hcond⟩)
        · rcases (mem_revisitSelectedSecs ch.sections acc).mp hx with hx | ⟨hxsel, s', hs', hrest⟩
          · exact Or.inl hx
          · exact Or.inr ⟨ch, List.mem_cons_self ch rest, Or.inr ⟨hxsel, s', hs', hrest⟩⟩
        · exact Or.inr ⟨ch, List.mem_cons_self ch rest, Or.inr ⟨hxsel, s', hs', hrest⟩⟩
        · exact Or.inr ⟨ch', List.mem_cons_of_mem ch hch', hcond⟩
      · rintro (hx | ⟨ch', hch', hcond⟩)
        · exact Or.inl (Or.inl ((mem_revisitSelectedSecs ch.sections acc).mpr (Or.inl hx)))
        · rcases List.mem_cons.mp hch' with rfl | hch'
          · rcases hcond with ⟨rfl, hxsel, s₀, hs₀, hs₀sel⟩ | ⟨hxsel, s', hs', hrest⟩
            · exact absurd ⟨List.any_eq_true.mpr ⟨s₀, hs₀, decide_eq_true hs₀sel⟩, hxsel⟩ hc
            · exact Or.inl (Or.inr ⟨hxsel, s', hs', hrest⟩)
          · exact Or.inr ⟨ch', hch', hcond⟩

/-- For a selected id, membership in the accumulated `has_selected_children`
set coincides with the direct-child drop condition. -/
theorem mem_has_selected_children {sel : List Str} {x : Str} (cat : Catalog) (hx : x ∈ sel) :
    x ∈ has_selected_children sel cat ↔ hasSelectedDirectChild cat sel x = true := by
  rw [has_selected_children, mem_checkChildrenChaps, hasSelectedDirectChild, List.any_eq_true]
  simp only [List.mem_nil_iff, false_or, Bool.or_eq_true, Bool.and_eq_true, List.any_eq_true,
    decide_eq_true_eq]
  constructor
  · rintro ⟨ch, hch, hcond⟩
    rcases hcond with ⟨rfl, _, s', hs', hsel'⟩ | ⟨_, s', hs', hid, u, hu, husel⟩
    · exact ⟨ch, hch, Or.inl ⟨rfl, s', hs', hsel'⟩⟩
    · exact ⟨ch, hch, Or.inr ⟨s', hs', hid, u, hu, husel⟩⟩
  · rintro ⟨ch, hch, ⟨hid, s', hs', hsel'⟩ | ⟨s', hs', hid, u, hu, husel⟩⟩
    · exact ⟨ch, hch, Or.inl ⟨hid.symm, hx, s', hs', hsel'⟩⟩
    · exact ⟨ch, hch, Or.inr ⟨hx, s', hs', hid, u, hu, husel⟩⟩

theorem filter_leaf_sections_eq_spec (section_titles chapter_ids : List Str)
    (catalog : Catalog) :
    filter_leaf_sections section_titles chapter_ids catalog =
      leafFilterSpec chapter_ids catalog := by
  unfold filter_leaf_sections leafFilterSpec
  apply List.filterMap_congr
  intro cid hcid
  by_cases hdrop : hasSelectedDirectChild catalog chapter_ids cid = true
  · have hmem : cid ∈ has_selected_children chapter_ids catalog :=
      (mem_has_selected_children catalog hcid).mpr hdrop
    rw [if_pos hmem, if_pos hdrop]
  · have hmem : cid ∉ has_selected_children chapter_ids catalog :=
      fun hm => hdrop ((mem_has_selected_children catalog hcid).mp hm)
    rw [if_neg hmem, if_neg hdrop]
    cases lookupLast (titleBindings catalog) cid <;> rfl

/-- C1 counterexample: with chapter `"2"` and its depth-2 descendant `"2.1.1"`
both selected (but the intermediate section `"2.1"` not selected), the filter
still returns the title `"C"` of the ancestor `"2"`, so a selected node is
NOT dropped whenever a descendant at any depth is selected — only a selected
*direct* child causes the drop. -/
theorem c1_counterexample :
    "2.1.1".toList ∈ descendantIds c1Catalog "2".toList ∧
    lookupLast (titleBindings c1Catalog) "2".toList = some "C".toList ∧
    filter_leaf_sections [] ["2".toList, "2.1.1".toList] c1Catalog =
      ["C".toList, "C - S - T".toList] := by
  refine ⟨by decide, by decide, by decide⟩

/-- C1 (amended): the filter drops a selected node exactly when one of its
*direct* children is also selected (`leafFilterSpec`); otherwise its resolved
nonempty title is returned, in selected order.  In particular, when both
chapter `"2"` and its child section `"2.1"` are selected, only the title for
`"2.1"` (`"C - S"`) is returned, never `"2"`'s title. -/
theorem c1_leaf_filter_amended :
    (∀ (section_titles chapter_ids : List Str) (catalog : Catalog),
        filter_leaf_sections section_titles chapter_ids catalog =
          leafFilterSpec chapter_ids catalog) ∧
    filter_leaf_sections [] ["2".toList, "2.1".toList] c1Catalog = ["C - S".toList] :=
  ⟨filter_leaf_sections_eq_spec, by decide⟩

/-- C5: the addressing algorithm assigns every chapter, section and
subsection a distinct address string: the list of all ids of the addressed
tree, at every depth, has no duplicate. -/
theorem c5_addressing_ids_unique : ∀ (catalog : Catalog),
    (collectIds (generate_catalog_ids 1 catalog)).Nodup :=
  fun catalog => genChap_ids_nodup 1 catalog

/-- C9: for every input string the parser is total (the embedding is a total
function; the only fallible step, `json.loads`, is wrapped in `try/except`):
it returns the decoded structure of the fence-stripped text when decoding
succeeds, and the original input string verbatim when decoding fails. -/
theorem c9_parse_result_total_behavior : ∀ (J : Type) (jsonLoads : Str → Option J)
    (ai_result : Str),
    (∃ v, jsonLoads (stripCodeFences ai_result) = some v ∧
        parse_result jsonLoads ai_result = .structured v) ∨
    (jsonLoads (stripCodeFences ai_result) = none ∧
        parse_result jsonLoads ai_result = .raw ai_result) := by
  intro J jsonLoads ai_result
  cases h : jsonLoads (stripCodeFences ai_result) with
  | none => exact Or.inr ⟨rfl, by simp [parse_result, h]⟩
  | some v => exact Or.inl ⟨v, rfl, by simp [parse_result, h]⟩

/-- C6 counterexample: a card carrying only the key `text` is stored with
`card_type = "cloze"` but its stored payload is the raw dict `{text}`, which
is not the `{text, cloze_items}` shape — so the stored type does not
determine the stored payload shape for every persisted card. -/
theorem c6_counterexample :
    detect_card_type { text := some "t".toList } = "cloze".toList ∧
    shapeOfType (detect_card_type { text := some "t".toList })
      (convert_card_to_jsonb { text := some "t".toList }) = false := by decide

/-- C6 (amended): for every card whose keys follow one of the three canonical
patterns produced by the card-generation prompts (basic `{question, answer}`,
cloze `{text, cloze_items}` without a full question/answer pair,
multiple-choice `{question, options, ...}` without answer/text/cloze keys),
the `card_type` computed by `_detect_card_type` agrees with the payload shape
produced by `_convert_card_to_jsonb`.  For cards mixing the key patterns the
two functions can disagree (see the counterexample). -/
theorem c6_type_shape_agree (card : Card)
    (h : canonicalBasic card ∨ canonicalCloze card ∨ canonicalMc card) :
    shapeOfType (detect_card_type card) (convert_card_to_jsonb card) = true := by
  obtain ⟨q, a, t, ci, o, cidx⟩ := card
  rcases h with ⟨hq, ha, ht, hc, ho⟩ | ⟨ht, hc, hqa⟩ | ⟨hq, ho, ha, ht, hc⟩
  · cases q <;> cases a <;> simp_all [detect_card_type, convert_card_to_jsonb, shapeOfType,
      isBasicShape]
  · cases t <;> cases ci <;> cases q <;> cases a <;>
      simp_all [detect_card_type, convert_card_to_jsonb, shapeOfType, isClozeShape]
  · cases q <;> cases o <;> simp_all [detect_card_type, convert_card_to_jsonb, shapeOfType,
      isMcShape, isClozeShape]

/-- Witness for C6 (amended) at the three concrete canonical cards. -/
theorem c6_type_shape_agree_witness :
    shapeOfType (detect_card_type c6BasicCard) (convert_card_to_jsonb c6BasicCard) = true ∧
    shapeOfType (detect_card_type c6ClozeCard) (convert_card_to_jsonb c6ClozeCard) = true ∧
    shapeOfType (detect_card_type c6McCard) (convert_card_to_jsonb c6McCard) = true :=
  ⟨c6_type_shape_agree _ (Or.inl (by simp [canonicalBasic, c6BasicCard])),
   c6_type_shape_agree _ (Or.inr (Or.inl (by simp [canonicalCloze, c6ClozeCard]))),
   c6_type_shape_agree _ (Or.inr (Or.inr (by simp [canonicalMc, c6McCard])))⟩

theorem validateFlashcards_eq_firstOffender (idx : Nat) (l : List InCard) :
    validateFlashcards idx l = (firstOffender idx l).map fun p => offenseMsg p.1 p.2 := by
  induction l generalizing idx with
  | nil => rfl
  | cons c rest ih =>
    rw [validateFlashcards, firstOffender]
    by_cases h1 : c.card_type = none
    · rw [if_pos h1, if_pos (show offendingCard c from Or.inl h1)]
      simp [offenseMsg, h1]
    · rw [if_neg h1]
      by_cases h2 : c.card_type.getD [] ∉ validCardTypes
      · rw [if_pos h2, if_pos (show offendingCard c from Or.inr (Or.inl h2))]
        simp [offenseMsg, h1, h2]
      · rw [if_neg h2]
        by_cases h3 : c.card_data = none
        · rw [if_pos h3, if_pos (show offendingCard c from Or.inr (Or.inr (Or.inl h3)))]
          simp [offenseMsg, h1, h3, not_not.mp h2]
        · rw [if_neg h3]
          by_cases h4 : c.order_index = none
          · rw [if_pos h4, if_pos (show offendingCard c from Or.inr (Or.inr (Or.inr h4)))]
            simp [offenseMsg, h1, h3, h4, not_not.mp h2]
          · rw [if_neg h4, if_neg (show ¬offendingCard c from by simp [offendingCard, h1, h2, h3, h4]), ih]

/-- C10: when any element of the batch lacks `card_type`, `card_data` or
`order_index`, or carries a `card_type` outside
{basic, cloze, multiple_choice}, `batch_create_flashcards` returns
`success = false` with the error message naming the first offending card's
index, and the flashcard table is left exactly as it was (no card of the
batch is stored). -/
theorem c10_batch_validates_before_insert (table : List FlashcardRow)
    (result_id user_id : Str) (flashcards : List InCard) (catalog_id : Option Str)
    (idx : Nat) (c : InCard) (h : firstOffender 0 flashcards = some (idx, c)) :
    (batch_create_flashcards table result_id user_id flashcards catalog_id).1.success = false ∧
    (batch_create_flashcards table result_id user_id flashcards catalog_id).1.error =
      some (offenseMsg idx c) ∧
    (batch_create_flashcards table result_id user_id flashcards catalog_id).2 = table := by
  have hv : validateFlashcards 0 flashcards = some (offenseMsg idx c) := by
    rw [validateFlashcards_eq_firstOffender, h]; rfl
  unfold batch_create_flashcards
  rw [hv]
  exact ⟨rfl, rfl, rfl⟩

theorem c10_batch_validates_before_insert_witness :
    (batch_create_flashcards [] "r".toList "u".toList [c10BadCard] none).1.success = false ∧
    (batch_create_flashcards [] "r".toList "u".toList [c10BadCard] none).1.error =
      some (offenseMsg 0 c10BadCard) ∧
    (batch_create_flashcards [] "r".toList "u".toList [c10BadCard] none).2 = [] :=
  c10_batch_validates_before_insert [] "r".toList "u".toList [c10BadCard] none 0 c10BadCard
    (by decide)

theorem pyTruthyOpt_some_ne {s : Str} (h : s ≠ []) : pyTruthyOpt (some s) = true := by
  cases s with
  | nil => exact absurd rfl h
  | cons a l => rfl

/-- C4: whenever the task does not exist, or its recorded `task_type` differs
from a (nonempty) expected kind, or its `workflow_type` differs from a
(nonempty) expected one, or its status is terminal (`completed`/`failed`),
`validate_task` returns an invalid result carrying an error message and the
task table — every row, including the status field — is returned exactly as
it was: no write is performed. -/
theorem c4_validate_task_invalid_no_mutation (db : TaskTable) (task_id : Str)
    (expected_task_type expected_workflow_type : Option Str)
    (h : get_task db task_id = none ∨
      ∃ task, get_task db task_id = some task ∧
        ((∃ t, expected_task_type = some t ∧ t ≠ [] ∧ task.task_type ≠ t) ∨
         (∃ w, expected_workflow_type = some w ∧ w ≠ [] ∧ task.workflow_type ≠ w) ∨
         task.status = "completed".toList ∨ task.status = "failed".toList)) :
    (validate_task db task_id expected_task_type expected_workflow_type).1.valid = false ∧
    (validate_task db task_id expected_task_type expected_workflow_type).1.error.isSome
      = true ∧
    (validate_task db task_id expected_task_type expected_workflow_type).2 = db := by
  unfold validate_task
  rcases h with hnone | ⟨task, htask, hcond⟩
  · rw [hnone]
    exact ⟨rfl, rfl, rfl⟩
  · rw [htask]
    dsimp only
    by_cases h1 : pyTruthyOpt expected_task_type = true ∧
        task.task_type ≠ expected_task_type.getD []
    · rw [if_pos h1]
      exact ⟨rfl, rfl, rfl⟩
    · rw [if_neg h1]
      by_cases h2 : pyTruthyOpt expected_workflow_type = true ∧
          task.workflow_type ≠ expected_workflow_type.getD []
      · rw [if_pos h2]
        exact ⟨rfl, rfl, rfl⟩
      · rw [if_neg h2]
        have h3 : task.status = "completed".toList ∨ task.status = "failed".toList := by
          rcases hcond with ⟨t, rfl, ht, hne⟩ | ⟨w, rfl, hw, hne⟩ | hst | hst
          · exact absurd ⟨pyTruthyOpt_some_ne ht, hne⟩ h1
          · exact absurd ⟨pyTruthyOpt_some_ne hw, hne⟩ h2
          · exact Or.inl hst
          · exact Or.inr hst
        rw [if_pos h3]
        exact ⟨rfl, rfl, rfl⟩

/-- Witness for C4: validating `c4Task` as a `file` task fails and leaves
the single-row table untouched. -/
theorem c4_validate_task_invalid_no_mutation_witness :
    (validate_task [c4Task] "t1".toList (some "file".toList) none).1.valid = false ∧
    (validate_task [c4Task] "t1".toList (some "file".toList) none).1.error.isSome = true ∧
    (validate_task [c4Task] "t1".toList (some "file".toList) none).2 = [c4Task] :=
  c4_validate_task_invalid_no_mutation [c4Task] "t1".toList (some "file".toList) none
    (Or.inr ⟨c4Task, by decide, Or.inl ⟨"file".toList, rfl, by decide, by decide⟩⟩)

/-- C2 (code bug): at the claimed scenario's input — a file task with a
cached media reference and three selected sections — the operation returns
`success = false` with no cards and an empty `section_results`, and its last
status write is `failed`, because the call to the nonexistent
`CatalogService.get_catalog_from_file` raises `AttributeError` before any
per-section AI call is made; the claimed aggregation (success with the
parsable sections' cards and a per-section breakdown) can never occur. -/
theorem c2_by_ids_attribute_error :
    (generate_flashcards_from_file_section_by_ids [c2FailTask] "t2".toList
      (some "f.pdf".toList) ["1".toList, "2".toList, "3".toList] true
      ["m1".toList]).1 =
      { success := false, error := some attributeErrorMsg, cards := [],
        section_results := [] } ∧
    (generate_flashcards_from_file_section_by_ids [c2FailTask] "t2".toList
      (some "f.pdf".toList) ["1".toList, "2".toList, "3".toList] true
      ["m1".toList]).2.getLast? = some (Effect.statusUpdate "failed".toList) := by
  decide

/-- C3 (code bug): for every table, task id, file path, selected-id list and
collaborator outcome, the operation returns `success = false` and an empty
card list — it can never report success, because every execution either
fails a guard or raises `AttributeError` at the `get_catalog_from_file`
call.  In particular the claimed threshold (failure iff all N per-section AI
calls fail to produce structured output, success otherwise) is not the
code's behavior: no per-section AI call is ever made. -/
theorem c3_by_ids_never_succeeds :
    ∀ (db : TaskTable) (task_id : Str) (filePath : Option Str)
      (chapter_ids : List Str) (fileExists : Bool) (uploadRefs : List Str),
      (generate_flashcards_from_file_section_by_ids db task_id filePath
        chapter_ids fileExists uploadRefs).1.success = false ∧
      (generate_flashcards_from_file_section_by_ids db task_id filePath
        chapter_ids fileExists uploadRefs).1.cards = [] := by
  intro db task_id filePath chapter_ids fileExists uploadRefs
  refine ⟨?_, ?_⟩ <;>
    (unfold generate_flashcards_from_file_section_by_ids
     repeat' split
     all_goals rfl)

/-- C8 counterexample: (a) `generate_flashcards_from_file` is a generation
step that needs the task's file, yet it performs the upload call on every
run — it takes no task-row input at all, so it cannot check the cached
reference (here the same run conditions under which `c8CachedTask` holds a
cached reference); and (b) when the single-section step does upload
(`c8UncachedTask`), the returned reference is *not* persisted into
`input_data` — no persist effect appears in its trace.  So neither
"every subsequent step checks the cache" nor "once uploaded, the reference
is persisted" holds of every generation step. -/
theorem c8_counterexample :
    cachedMedia c8CachedTask = ["media1".toList] ∧
    hasUpload (generate_flashcards_from_file "t8".toList "f.pdf".toList true
      ["m2".toList] true) = true ∧
    hasUpload (generate_flashcards_from_file_section [c8UncachedTask] "t9".toList
      (some "f.pdf".toList) "sec".toList true ["m2".toList] true) = true ∧
    (Effect.persistFileInfo ["m2".toList] ∉
      generate_flashcards_from_file_section [c8UncachedTask] "t9".toList
        (some "f.pdf".toList) "sec".toList true ["m2".toList] true) := by decide

theorem get_task_updateTaskInputFileInfo (db : TaskTable) (task_id : Str)
    (refs : List Str) :
    get_task (updateTaskInputFileInfo db task_id refs) task_id =
      (get_task db task_id).map (cacheFileInfo refs) := by
  induction db with
  | nil => rfl
  | cons t rest ih =>
    unfold get_task selectTasks updateTaskInputFileInfo at *
    rw [List.map_cons, List.filter_cons, List.filter_cons]
    by_cases h : t.id = task_id
    · rw [if_pos h]
      have hid : (cacheFileInfo refs t).id = t.id := rfl
      simp [hid, h, cacheFileInfo]
    · rw [if_neg h]
      have hid : (if t.id = task_id then cacheFileInfo refs t else t).id = t.id := by
        rw [if_neg h]
      simp only [hid, h, decide_False, Bool.false_eq_true, if_false]
      rw [if_neg h] at *
      exact ih

/-- C8 (amended): the media reference is persisted into
`input_data.file.info` only by the catalog-analysis step: after
`analyze_catalog_from_file` on an existing task, the task row holds the
uploaded references.  The section-based generation steps
(`generate_flashcards_from_file_section` and the `_by_ids` variant) check
this cached reference first and perform no upload call when it is present.
The whole-file generation step, by contrast, never consults the cache (see
the counterexample), and uploads performed by the section steps are not
persisted back. -/
theorem c8_media_cache_amended (db : TaskTable) (task_id filePath : Str)
    (filePath' : Option Str) (sectionTitle : Str) (chapter_ids : List Str)
    (fileExists parsedIsList : Bool) (uploadRefs : List Str) (task : TaskRow)
    (htask : get_task db task_id = some task) (hid : task_id ≠ [])
    (hcached : cachedMedia task ≠ []) :
    (Effect.persistFileInfo uploadRefs ∈
        (analyze_catalog_from_file db task_id filePath uploadRefs).1 ∧
      get_task (analyze_catalog_from_file db task_id filePath uploadRefs).2 task_id =
        some (cacheFileInfo uploadRefs task)) ∧
    hasUpload (generate_flashcards_from_file_section db task_id filePath' sectionTitle
      fileExists uploadRefs parsedIsList) = false ∧
    hasUpload (generate_by_ids_upload_phase db task_id filePath' chapter_ids
      fileExists uploadRefs) = false := by
  refine ⟨⟨?_, ?_⟩, ?_, ?_⟩
  · unfold analyze_catalog_from_file
    rw [if_neg hid, htask]
    simp
  · unfold analyze_catalog_from_file
    rw [if_neg hid, htask]
    dsimp only
    rw [get_task_updateTaskInputFileInfo, htask]
    rfl
  · unfold generate_flashcards_from_file_section
    rw [if_neg hid]
    by_cases hst : pyStrip sectionTitle = []
    · rw [if_pos hst]
      rfl
    · rw [if_neg hst, htask]
      dsimp only
      rw [if_pos hcached]
      cases parsedIsList <;> rfl
  · unfold generate_by_ids_upload_phase
    rw [if_neg hid]
    by_cases hch : chapter_ids = []
    · rw [if_pos hch]
      rfl
    · rw [if_neg hch, htask]
      dsimp only
      rw [if_pos hcached]
      rfl

/-- Witness for C8 (amended) on the cached one-task table. -/
theorem c8_media_cache_amended_witness :
    ((Effect.persistFileInfo ["m2".toList] ∈
        (analyze_catalog_from_file [c8CachedTask] "t8".toList "f.pdf".toList
          ["m2".toList]).1 ∧
      get_task (analyze_catalog_from_file [c8CachedTask] "t8".toList "f.pdf".toList
          ["m2".toList]).2 "t8".toList = some (cacheFileInfo ["m2".toList] c8CachedTask)) ∧
    hasUpload (generate_flashcards_from_file_section [c8CachedTask] "t8".toList
      (some "f.pdf".toList) "sec".toList true ["m2".toList] true) = false ∧
    hasUpload (generate_by_ids_upload_phase [c8CachedTask] "t8".toList
      (some "f.pdf".toList) ["1".toList] true ["m2".toList]) = false) :=
  c8_media_cache_amended [c8CachedTask] "t8".toList "f.pdf".toList
    (some "f.pdf".toList) "sec".toList ["1".toList] true true ["m2".toList] c8CachedTask
    (by decide) (by decide) (by decide)

theorem isPrefixOf_self_append (l r : Str) : l.isPrefixOf (l ++ r) = true := by
  induction l with
  | nil => simp [List.isPrefixOf]
  | cons x xs ih => simp [List.isPrefixOf, ih]

theorem qPrefix_chars : "Q: ".toList = ['Q', ':', ' '] := by decide

theorem nA_chars : "\nA: ".toList = '\n' :: "A: ".toList := by decide

theorem nCorrect_chars : "\nCorrect: ".toList = '\n' :: "Correct: ".toList := by decide

theorem drop3_append (p : Str) (hp : p.length = 3) (r : Str) : (p ++ r).drop 3 = r := by
  rcases p with _ | ⟨a, _ | ⟨b, _ | ⟨c, _ | ⟨d, t⟩⟩⟩⟩ <;> simp_all

theorem drop9_append (p : Str) (hp : p.length = 9) (r : Str) : (p ++ r).drop 9 = r := by
  have : (p ++ r).drop 9 = (p ++ r).drop p.length := by rw [hp]
  rw [this, List.drop_left]

theorem splitAtChar_append {c : Char} {a : Str} (h : c ∉ a) (b : Str) :
    splitAtChar c (a ++ c :: b) = some (a, b) := by
  induction a with
  | nil => simp [splitAtChar]
  | cons x xs ih =>
    have hx : x ≠ c := fun hxc => h (hxc ▸ List.mem_cons_self x xs)
    rw [List.cons_append, splitAtChar, if_neg hx,
      ih (fun hm => h (List.mem_cons_of_mem x hm))]
    rfl

theorem splitAllChar_no_sep {c : Char} {l : Str} (h : c ∉ l) :
    splitAllChar c l = [l] := by
  induction l with
  | nil => rfl
  | cons x xs ih =>
    have hx : x ≠ c := fun hxc => h (hxc ▸ List.mem_cons_self x xs)
    rw [splitAllChar, if_neg hx, ih (fun hm => h (List.mem_cons_of_mem x hm))]

theorem splitAllChar_append {c : Char} {a : Str} (h : c ∉ a) (b : Str) :
    splitAllChar c (a ++ c :: b) = a :: splitAllChar c b := by
  induction a with
  | nil => simp [splitAllChar]
  | cons x xs ih =>
    have hx : x ≠ c := fun hxc => h (hxc ▸ List.mem_cons_self x xs)
    rw [List.cons_append, splitAllChar, if_neg hx,
      ih (fun hm => h (List.mem_cons_of_mem x hm))]

theorem splitAllChar_joinSep {c : Char} {ls : List Str} (rest : Str) (hne : ls ≠ [])
    (hfree : ∀ l ∈ ls, c ∉ l) :
    splitAllChar c (joinSep [c] ls ++ c :: rest) = ls ++ splitAllChar c rest := by
  induction ls with
  | nil => exact absurd rfl hne
  | cons l ls' ih =>
    cases ls' with
    | nil =>
      rw [joinSep, splitAllChar_append (hfree l (List.mem_cons_self l [])) rest]
      rfl
    | cons l₂ ls'' =>
      have hstep : joinSep [c] (l :: l₂ :: ls'') = l ++ c :: joinSep [c] (l₂ :: ls'') := by
        show (l ++ [c]) ++ joinSep [c] (l₂ :: ls'') = l ++ c :: joinSep [c] (l₂ :: ls'')
        rw [List.append_assoc]
        rfl
      rw [hstep, List.append_assoc, List.cons_append,
        splitAllChar_append (hfree l (List.mem_cons_self l _)) _,
        ih (List.cons_ne_nil _ _) (fun x hx => hfree x (List.mem_cons_of_mem l hx))]
      rfl

theorem brSplit_no_sep {l : Str} (h : '<' ∉ l) : brSplit l = [l] := by
  induction l with
  | nil => simp [brSplit]
  | cons x xs ih =>
    have hx : x ≠ '<' := fun hxc => h (hxc ▸ List.mem_cons_self x xs)
    rw [brSplit, if_neg (fun hc => hx hc.1),
      ih (fun hm => h (List.mem_cons_of_mem x hm))]

theorem brSplit_append {a : Str} (h : '<' ∉ a) (b : Str) :
    brSplit (a ++ '<' :: 'b' :: 'r' :: '>' :: b) = a :: brSplit b := by
  induction a with
  | nil =>
    rw [List.nil_append, brSplit,
      if_pos ⟨rfl, show ("br>".toList).isPrefixOf ("br>".toList ++ b) = true from
        isPrefixOf_self_append "br>".toList b⟩]
    rfl
  | cons x xs ih =>
    have hx : x ≠ '<' := fun hxc => h (hxc ▸ List.mem_cons_self x xs)
    rw [List.cons_append, brSplit, if_neg (fun hc => hx hc.1),
      ih (fun hm => h (List.mem_cons_of_mem x hm))]

theorem brSplit_joinSep {ls : List Str} (hne : ls ≠ [])
    (hfree : ∀ l ∈ ls, '<' ∉ l) :
    brSplit (joinSep "<br>".toList ls) = ls := by
  induction ls with
  | nil => exact absurd rfl hne
  | cons l ls' ih =>
    cases ls' with
    | nil =>
      rw [joinSep, brSplit_no_sep (hfree l (List.mem_cons_self l []))]
    | cons l₂ ls'' =>
      have hstep : joinSep "<br>".toList (l :: l₂ :: ls'') =
          l ++ '<' :: 'b' :: 'r' :: '>' :: joinSep "<br>".toList (l₂ :: ls'') := by
        show (l ++ "<br>".toList) ++ joinSep "<br>".toList (l₂ :: ls'') =
          l ++ '<' :: 'b' :: 'r' :: '>' :: joinSep "<br>".toList (l₂ :: ls'')
        rw [List.append_assoc]
        rfl
      rw [hstep, brSplit_append (hfree l (List.mem_cons_self l _)) _,
        ih (List.cons_ne_nil _ _) (fun x hx => hfree x (List.mem_cons_of_mem l hx))]

theorem choiceLines_map_drop (i : Nat) (opts : List Str) :
    (choiceLines i opts).map (·.drop 3) = opts := by
  induction opts generalizing i with
  | nil => rfl
  | cons o os ih => rw [choiceLines, List.map_cons, ih (i + 1)]; rfl

theorem letterChar_toNat : ∀ i < 26, (letterChar i).toNat = 65 + i := by decide

theorem letterChar_ne_nl : ∀ i < 26, letterChar i ≠ '\n' := by decide

theorem letterChar_ne_lt : ∀ i < 26, letterChar i ≠ '<' := by decide

theorem choiceLines_free {c : Char} (hdot : '.' ≠ c) (hsp : ' ' ≠ c)
    (hletter : ∀ k < 26, letterChar k ≠ c) :
    ∀ (i : Nat) (opts : List Str), i + opts.length ≤ 26 →
      (∀ o ∈ opts, c ∉ o) → ∀ l ∈ choiceLines i opts, c ∉ l := by
  intro i opts
  induction opts generalizing i with
  | nil => intro _ _ l hl; simp [choiceLines] at hl
  | cons o os ih =>
    intro hlen ho l hl
    rw [choiceLines] at hl
    rcases List.mem_cons.mp hl with rfl | hl
    · intro hmem
      rcases List.mem_cons.mp hmem with h1 | hmem
      · exact hletter i (by simp at hlen; omega) h1.symm
      rcases List.mem_cons.mp hmem with h1 | hmem
      · exact hdot h1.symm
      rcases List.mem_cons.mp hmem with h1 | hmem
      · exact hsp h1.symm
      · exact ho o (List.mem_cons_self o os) hmem
    · exact ih (i + 1) (by simp at hlen ⊢; omega)
        (fun x hx => ho x (List.mem_cons_of_mem o hx)) l hl

theorem choiceLines_ne_nil {i : Nat} {opts : List Str} (h : opts ≠ []) :
    choiceLines i opts ≠ [] := by
  cases opts with
  | nil => exact absurd rfl h
  | cons o os => rw [choiceLines]; exact List.cons_ne_nil _ _

theorem getD_mem_of_lt {l : List Str} {i : Nat} (h : i < l.length) : l.getD i [] ∈ l := by
  rw [List.getD_eq_getElem l [] h]
  exact List.getElem_mem h

theorem decodeBasicCsv_roundtrip (q a : Str) (hq : '\n' ∉ q) :
    decodeBasicCsv (csvContent "basic".toList (.basicData q a)) = some (q, a) := by
  have hc : csvContent "basic".toList (.basicData q a) =
      "Q: ".toList ++ (q ++ '\n' :: ("A: ".toList ++ a)) := by
    unfold csvContent
    rw [if_pos rfl, show dataQuestion (.basicData q a) = q from rfl,
      show dataAnswer (.basicData q a) = a from rfl, nA_chars]
    simp [List.append_assoc]
  rw [hc]
  unfold decodeBasicCsv
  rw [if_pos (isPrefixOf_self_append "Q: ".toList _),
    drop3_append "Q: ".toList (by decide) _, splitAtChar_append hq _]
  dsimp only
  rw [if_pos (isPrefixOf_self_append "A: ".toList _),
    drop3_append "A: ".toList (by decide) _]

theorem decodeChoiceCsv_roundtrip (q : Str) (opts : List Str) (ci : Nat)
    (hq : '\n' ∉ q) (hopts : ∀ o ∈ opts, '\n' ∉ o) (hci : ci < opts.length)
    (hlen : opts.length ≤ 26) :
    decodeChoiceCsv (csvContent "multiple_choice".toList (.mcData q opts ci)) =
      some (q, opts, ci) := by
  have hone : opts ≠ [] := by
    intro h
    rw [h] at hci
    simp at hci
  have hcontent : csvContent "multiple_choice".toList (.mcData q opts ci) =
      ("Q: ".toList ++ q) ++ '\n' ::
        (joinSep ['\n'] (choiceLines 0 opts) ++ '\n' ::
          ("Correct: ".toList ++ letterChar ci :: '.' :: ' ' :: opts.getD ci [])) := by
    unfold csvContent
    rw [if_neg (by decide), if_neg (by decide), if_pos rfl,
      show dataQuestion (.mcData q opts ci) = q from rfl,
      show dataOptions (.mcData q opts ci) = opts from rfl,
      show dataCorrectIndex (.mcData q opts ci) = ci from rfl, if_pos hci, nCorrect_chars]
    simp [List.append_assoc]
  have hqfree : '\n' ∉ ("Q: ".toList ++ q) := by
    intro hm
    rcases List.mem_append.mp hm with h | h
    · exact (by decide : '\n' ∉ "Q: ".toList) h
    · exact hq h
  have hcfree : '\n' ∉
      ("Correct: ".toList ++ letterChar ci :: '.' :: ' ' :: opts.getD ci []) := by
    intro hm
    rcases List.mem_append.mp hm with h | h
    · exact (by decide : '\n' ∉ "Correct: ".toList) h
    rcases List.mem_cons.mp h with h | h
    · exact letterChar_ne_nl ci (by omega) h.symm
    rcases List.mem_cons.mp h with h | h
    · exact (by decide : ('.' : Char) ≠ '\n') h.symm
    rcases List.mem_cons.mp h with h | h
    · exact (by decide : (' ' : Char) ≠ '\n') h.symm
    · exact hopts _ (getD_mem_of_lt hci) h
  have hlinesfree : ∀ l ∈ choiceLines 0 opts, '\n' ∉ l :=
    choiceLines_free (by decide) (by decide) letterChar_ne_nl 0 opts (by omega) hopts
  rw [hcontent]
  unfold decodeChoiceCsv
  rw [splitAllChar_append hqfree,
    splitAllChar_joinSep _ (choiceLines_ne_nil hone) hlinesfree,
    splitAllChar_no_sep hcfree]
  dsimp only
  rw [if_pos (isPrefixOf_self_append "Q: ".toList q), List.getLast?_concat]
  dsimp only
  rw [if_pos (isPrefixOf_self_append "Correct: ".toList _),
    drop9_append "Correct: ".toList (by decide) _]
  dsimp only
  rw [List.dropLast_concat, choiceLines_map_drop,
    drop3_append "Q: ".toList (by decide) q, letterChar_toNat ci (by omega)]
  simp

theorem decodeChoiceFields_roundtrip (q : Str) (opts : List Str) (ci : Nat)
    (hopts : ∀ o ∈ opts, '<' ∉ o) (hci : ci < opts.length) (hlen : opts.length ≤ 26) :
    decodeChoiceFields (pkgFieldsChoice (.mcData q opts ci)) = some (q, opts, ci) := by
  have hone : opts ≠ [] := by
    intro h
    rw [h] at hci
    simp at hci
  unfold pkgFieldsChoice
  rw [show dataQuestion (.mcData q opts ci) = q from rfl,
    show dataOptions (.mcData q opts ci) = opts from rfl,
    show dataCorrectIndex (.mcData q opts ci) = ci from rfl, if_pos hci]
  unfold decodeChoiceFields
  dsimp only
  rw [brSplit_joinSep (choiceLines_ne_nil hone)
      (choiceLines_free (by decide) (by decide) letterChar_ne_lt 0 opts (by omega) hopts),
    choiceLines_map_drop, letterChar_toNat ci (by omega)]
  simp

/-- C7 counterexample: the CSV path folds question and answer into the single
content string `"Q: {q}\nA: {a}"`, so the two distinct non-deleted basic
cards `("x\nA: y", "z")` and `("x", "y\nA: z")` export to identical CSV
rows — no reader can recover both originals, hence the round trip is not
lossless for every card of the basic shape. -/
theorem c7_counterexample :
    json_to_csv [c7CardA] = json_to_csv [c7CardB] ∧ c7CardA ≠ c7CardB := by decide

/-- C7 (amended): for each of the three card-data shapes, exporting a
non-deleted Flashcard through the deck-package path and the CSV path and
reading the exported content back recovers the original
question/answer, cloze text, or options plus correct index — provided the
question contains no newline, the options contain no newline and no `'<'`
(the CSV line and `"<br>"` separators), the correct index is in range, and
there are at most 26 options (A–Z labels).  Without these conditions the
encodings are not injective (see the counterexample). -/
theorem c7_card_round_trip (q a t : Str) (items : List Str) (opts : List Str)
    (ci : Nat) (hq : '\n' ∉ q) (hopts : ∀ o ∈ opts, '\n' ∉ o ∧ '<' ∉ o)
    (hci : ci < opts.length) (hlen : opts.length ≤ 26) :
    json_to_anki_pkg [c7Basic q a] = [("Basic Card".toList, [q, a])] ∧
    json_to_csv [c7Basic q a] =
      [("basic".toList, csvContent "basic".toList (.basicData q a),
        "anki_genix".toList)] ∧
    decodeBasicCsv (csvContent "basic".toList (.basicData q a)) = some (q, a) ∧
    json_to_anki_pkg [c7Cloze t items] = [("Cloze Card".toList, [t, []])] ∧
    json_to_csv [c7Cloze t items] = [("cloze".toList, t, "anki_genix".toList)] ∧
    json_to_anki_pkg [c7Choice q opts ci] =
      [("Multiple Choice Card".toList, pkgFieldsChoice (.mcData q opts ci))] ∧
    decodeChoiceFields (pkgFieldsChoice (.mcData q opts ci)) = some (q, opts, ci) ∧
    json_to_csv [c7Choice q opts ci] =
      [("multiple_choice".toList,
        csvContent "multiple_choice".toList (.mcData q opts ci),
        "anki_genix".toList)] ∧
    decodeChoiceCsv (csvContent "multiple_choice".toList (.mcData q opts ci)) =
      some (q, opts, ci) :=
  ⟨rfl, rfl, decodeBasicCsv_roundtrip q a hq, rfl, rfl, rfl,
   decodeChoiceFields_roundtrip q opts ci (fun o ho => (hopts o ho).2) hci hlen, rfl,
   decodeChoiceCsv_roundtrip q opts ci hq (fun o ho => (hopts o ho).1) hci hlen⟩

/-- Witness for C7 (amended) at concrete cards of all three shapes. -/
theorem c7_card_round_trip_witness :
    decodeBasicCsv (csvContent "basic".toList
      (.basicData "q1".toList "a1".toList)) = some ("q1".toList, "a1".toList) ∧
    decodeChoiceFields (pkgFieldsChoice
      (.mcData "q1".toList ["o1".toList, "o2".toList] 1)) =
      some ("q1".toList, ["o1".toList, "o2".toList], 1) ∧
    decodeChoiceCsv (csvContent "multiple_choice".toList
      (.mcData "q1".toList ["o1".toList, "o2".toList] 1)) =
      some ("q1".toList, ["o1".toList, "o2".toList], 1) :=
  ⟨(c7_card_round_trip "q1".toList "a1".toList "t1".toList ["i1".toList]
      ["o1".toList, "o2".toList] 1 (by decide) (by decide) (by decide)
      (by decide)).2.2.1,
   (c7_card_round_trip "q1".toList "a1".toList "t1".toList ["i1".toList]
      ["o1".toList, "o2".toList] 1 (by decide) (by decide) (by decide)
      (by decide)).2.2.2.2.2.2.1,
   (c7_card_round_trip "q1".toList "a1".toList "t1".toList ["i1".toList]
      ["o1".toList, "o2".toList] 1 (by decide) (by decide) (by decide)
      (by decide)).2.2.2.2.2.2.2.2⟩

end AnkiGenix


